import Mathlib

/-!
# The bitmap-to-SDF rasterizer `src/sdf/ftbsdf.c`

A shallow embedding of `bsdf_init_distance_map` and `bsdf_raster_render`,
followed by the properties established for them.

Conventions of the embedding.

* `FT_Int` values, and the dimensions of a bitmap, are mathematical integers
  (signed overflow is undefined in C); an index used to address memory
  has to be representable (`0 ≤ i ≤ FT_INT_MAX`) and inside the block it
  addresses, otherwise the access is undefined and the embedding yields
  `none`.
* The `width` and `rows` of an `FT_Bitmap` are `unsigned int`, those of the
  worker are `FT_Int`: the size test of `bsdf_init_distance_map` compares the
  worker's dimension after its conversion to `unsigned int`, see
  `to_unsigned`.  The differences `x_diff`, `y_diff` are used only when a
  cell is visited, that is when both dimensions of the worker are positive
  and the size test found them at least as large as the source's; they are
  then the mathematical differences.
* `FT_Short` is the 16-bit signed integer; a conversion to it keeps the low
  16 bits (two's complement), see `to_FT_Short`.
* A pointer to a bitmap, a worker, a raster or a memory handle is an `Option`
  (`none` is the null pointer).  The distance map pointer is modelled by the
  block of records it addresses, a null pointer addressing no record at all.
-/

namespace Ftbsdf

/-! ## Types declared in the FreeType headers -/

/-- Error codes that occur in this file (`FT_Err_Ok` is zero, every other one
is non-zero); `Out_Of_Memory` and `Array_Too_Large` are what the allocator
reports. -/
inductive FT_Error where
  | FT_Err_Ok
  | Invalid_Argument
  | Unimplemented_Feature
  | Raster_Corrupted
  | Invalid_Handle
  | Out_Of_Memory
  | Array_Too_Large
  deriving DecidableEq, Repr

/-- The pixel modes named by the `switch` of `bsdf_init_distance_map`; every
other value of the `pixel_mode` byte (`FT_PIXEL_MODE_BGRA`, values past the
enumeration) is `OTHER`, which is what reaches the `default` label. -/
inductive FT_Pixel_Mode where
  | NONE
  | MONO
  | GRAY
  | GRAY2
  | GRAY4
  | GRAY16
  | LCD
  | LCD_V
  | OTHER (code : Nat)
  deriving DecidableEq, Repr

/-- An unsigned 8-bit sample of the source buffer. -/
abbrev FT_Byte := Fin 256

/-- The largest `FT_Int`, for the 32-bit `int`. -/
def FT_INT_MAX : Int := 2147483647

/-- Conversion of an integer to `FT_Short`, the signed 16-bit integer that also
carries the 6.10 representation `FT_6D10`: the low 16 bits are kept. -/
def to_FT_Short (v : Int) : Int := (v + 32768) % 65536 - 32768

structure FT_Vector where
  x : Int
  y : Int
  deriving DecidableEq, Repr

/-- The fields of `FT_Bitmap` this file reads, and `pitch`. -/
structure FT_Bitmap where
  rows : Int
  width : Int
  pitch : Int
  buffer : List FT_Byte
  pixel_mode : FT_Pixel_Mode
  deriving DecidableEq, Repr

structure FT_Raster_Params where
  target : Option FT_Bitmap
  source : Option FT_Bitmap
  flags : Int
  deriving DecidableEq, Repr

/-- The fields of `SDF_Raster_Params` this file reads. -/
structure SDF_Raster_Params where
  root : FT_Raster_Params
  spread : Int
  flip_y : Bool
  deriving DecidableEq, Repr

/-! ## Types declared in `ftbsdf.c` -/

/-- The record `ED`: distance and nearest point. -/
structure ED where
  dist : Int
  near : FT_Vector
  deriving DecidableEq, Repr

structure BSDF_Worker where
  distance_map : List ED
  width : Int
  rows : Int
  params : SDF_Raster_Params
  deriving DecidableEq, Repr

/-! ## `bsdf_init_distance_map` -/

/-- The read `s[s_index]`. -/
def load_byte (s : List FT_Byte) (s_index : Int) : Option FT_Byte :=
  if 0 ≤ s_index ∧ s_index ≤ FT_INT_MAX then s[s_index.toNat]? else none

/-- The write `t[t_index].dist = v`; the `near` field of the record stays. -/
def store_dist (t : List ED) (t_index : Int) (v : Int) : Option (List ED) :=
  if 0 ≤ t_index ∧ t_index ≤ FT_INT_MAX then
    match t[t_index.toNat]? with
    | some e => some (t.set t_index.toNat { e with dist := v })
    | none => none
  else none

/-- Lines 202-214: the sample is widened to `FT_Short`, 255 is replaced by
256, the value is shifted left by 8 and stored back into the `FT_Short`;
the result is what is assigned to `dist`. -/
def gray_pixel_value (b : FT_Byte) : Int :=
  let pixel_value : Int := to_FT_Short (b.val : Int)
  let pixel_value : Int := if pixel_value = 255 then 256 else pixel_value
  to_FT_Short (pixel_value * 2 ^ 8)

/-- The body of the inner loop (lines 181-214) for the cell `(t_i, t_j)`. -/
def gray_cell (source : FT_Bitmap) (worker : BSDF_Worker) (x_diff y_diff : Int)
    (t_j t_i : Int) (t : List ED) : Option (List ED) :=
  let t_width := worker.width
  let s_width := source.width
  let s_rows := source.rows
  let t_index := t_j * t_width + t_i
  let s_i := t_i - x_diff
  let s_j := t_j - y_diff
  if s_i < 0 ∨ s_i ≥ s_width ∨ s_j < 0 ∨ s_j ≥ s_rows then
    store_dist t t_index FT_INT_MAX
  else
    let s_index :=
      if worker.params.flip_y then (s_rows - s_j - 1) * s_width + s_i
      else s_j * s_width + s_i
    match load_byte source.buffer s_index with
    | none => none
    | some b => store_dist t t_index (gray_pixel_value b)

/-- The inner loop `for ( t_i = 0; t_i < t_width; t_i++ )`. -/
def gray_row (source : FT_Bitmap) (worker : BSDF_Worker) (x_diff y_diff : Int)
    (t_j : Int) (t : List ED) : Option (List ED) :=
  (List.range worker.width.toNat).foldlM
    (fun t (i : Nat) => gray_cell source worker x_diff y_diff t_j (i : Int) t) t

/-- The outer loop `for ( t_j = 0; t_j < t_rows; t_j++ )`. -/
def gray_rows (source : FT_Bitmap) (worker : BSDF_Worker) (x_diff y_diff : Int)
    (t : List ED) : Option (List ED) :=
  (List.range worker.rows.toNat).foldlM
    (fun t (j : Nat) => gray_row source worker x_diff y_diff (j : Int) t) t

/-- Conversion of an `FT_Int` to `unsigned int` (32 bits): a negative value
`v` becomes `v + 2 ^ 32`. -/
def to_unsigned (v : Int) : Int := if v < 0 then v + 4294967296 else v

/-- The function `bsdf_init_distance_map`: the error it returns and the worker
as it leaves it; `none` when a memory access is undefined.  In the size test
`worker->width < source->width` the left side is an `FT_Int` and the right
side an `unsigned int`, so the left side is converted to `unsigned int`. -/
def bsdf_init_distance_map (source : Option FT_Bitmap) (worker : Option BSDF_Worker) :
    Option (FT_Error × Option BSDF_Worker) :=
  match source, worker with
  | none, _ => some (FT_Error.Invalid_Argument, worker)
  | _, none => some (FT_Error.Invalid_Argument, none)
  | some source, some worker =>
    if to_unsigned worker.width < source.width ∨
        to_unsigned worker.rows < source.rows then
      some (FT_Error.Invalid_Argument, some worker)
    else if source.pixel_mode = FT_Pixel_Mode.NONE then
      some (FT_Error.Invalid_Argument, some worker)
    else
      let x_diff := (worker.width - source.width).tdiv 2
      let y_diff := (worker.rows - source.rows).tdiv 2
      match source.pixel_mode with
      | FT_Pixel_Mode.GRAY2 | FT_Pixel_Mode.GRAY4 | FT_Pixel_Mode.GRAY16
      | FT_Pixel_Mode.LCD | FT_Pixel_Mode.LCD_V | FT_Pixel_Mode.MONO =>
        some (FT_Error.Unimplemented_Feature, some worker)
      | FT_Pixel_Mode.GRAY =>
        match gray_rows source worker x_diff y_diff worker.distance_map with
        | none => none
        | some t => some (FT_Error.FT_Err_Ok, some { worker with distance_map := t })
      | _ => some (FT_Error.Unimplemented_Feature, some worker)

/-! ## `bsdf_raster_render` -/

/-- Modelled from the spec: the allocator handle `FT_Memory`, the capability
for acquiring the working Distance Map that the host supplies.  Its
declaration and `FT_QALLOC_MULT` are in FreeType's internal memory header,
which is not among the sources.  `qalloc count item` is the outcome of
`FT_QALLOC_MULT( p, count, item * sizeof ( ED ) )`: the value given to `error`
and the block `p` addresses afterwards (no record after a failure; records of
unspecified contents after a success). -/
structure FT_Memory where
  qalloc : Int → Int → FT_Error × List ED

structure BSDF_TRaster where
  memory : Option FT_Memory

/-- Constants declared in headers that are not among the sources, taken as
parameters. -/
structure SDF_Constants where
  MIN_SPREAD : Int
  MAX_SPREAD : Int
  FT_RASTER_FLAG_SDF : Int
  deriving DecidableEq, Repr

/-- The macro `FT_QALLOC_MULT`: it assigns `error` and the pointer, and its
value is `error != 0`, as for `FT_ALLOC` in `bsdf_raster_new`, whose block
under `!FT_ALLOC( ... )` uses the raster just allocated. -/
def FT_QALLOC_MULT (memory : FT_Memory) (count item : Int) : Bool × FT_Error × List ED :=
  let r := memory.qalloc count item
  (decide (r.1 ≠ FT_Error.FT_Err_Ok), r.1, r.2)

/-- What `bsdf_raster_render` leaves at `Exit`: the error it returns, the
block obtained from the allocator (`none` when the allocator was not called),
the worker as `bsdf_init_distance_map` left it (`none` when that function was
not called), and the target bitmap. -/
structure Render_Exit where
  error : FT_Error
  allocated : Option (List ED)
  worker : Option BSDF_Worker
  target : Option FT_Bitmap
  deriving DecidableEq, Repr

/-- The function `bsdf_raster_render`; `none` when a memory access of
`bsdf_init_distance_map` is undefined.  No statement of the function writes
through `target`. -/
def bsdf_raster_render (K : SDF_Constants) (raster : Option BSDF_TRaster)
    (params : Option SDF_Raster_Params) : Option Render_Exit :=
  let leave (error : FT_Error) : Option Render_Exit :=
    some { error := error, allocated := none, worker := none,
           target := params.bind (fun p => p.root.target) }
  match raster, params with
  | none, _ => leave FT_Error.Invalid_Argument
  | _, none => leave FT_Error.Invalid_Argument
  | some bsdf_raster, some sdf_params =>
    if sdf_params.root.flags ≠ K.FT_RASTER_FLAG_SDF then
      leave FT_Error.Raster_Corrupted
    else
      match sdf_params.root.source, sdf_params.root.target with
      | none, _ => leave FT_Error.Invalid_Argument
      | _, none => leave FT_Error.Invalid_Argument
      | some source, some target =>
        match bsdf_raster.memory with
        | none => leave FT_Error.Invalid_Handle
        | some memory =>
          if sdf_params.spread > K.MAX_SPREAD ∨ sdf_params.spread < K.MIN_SPREAD then
            leave FT_Error.Invalid_Argument
          else
            match FT_QALLOC_MULT memory target.rows target.width with
            | (failed, error, distance_map) =>
              if !failed then
                some { error := error, allocated := some distance_map, worker := none,
                       target := some target }
              else
                let worker : BSDF_Worker :=
                  { distance_map := distance_map, width := target.width,
                    rows := target.rows, params := sdf_params }
                match bsdf_init_distance_map (some source) (some worker) with
                | none => none
                | some (error, worker) =>
                  some { error := error, allocated := some distance_map, worker := worker,
                         target := some target }

/-! ## Notions used to state the properties -/

/-- The worker with its `flip_y` parameter set to `flip_y`. -/
def with_flip_y (worker : BSDF_Worker) (flip_y : Bool) : BSDF_Worker :=
  { worker with params := { worker.params with flip_y := flip_y } }

/-- The source whose rows are in reverse order: the sample at column `x`, row
`y` of the result is the sample at column `x`, row `rows - y - 1` of `source`
(rows of `width` samples, `rows * width` samples in all). -/
def reverse_rows (source : FT_Bitmap) : FT_Bitmap :=
  { source with
    buffer := (List.range (source.rows.toNat * source.width.toNat)).map
      (fun k => source.buffer.getD
        ((source.rows.toNat - k / source.width.toNat - 1) * source.width.toNat +
          k % source.width.toNat) 0) }

/-- What a run leaves to observe: the error code and the distance map. -/
def observed (r : Option (FT_Error × Option BSDF_Worker)) :
    Option (FT_Error × Option (List ED)) :=
  r.map (fun p => (p.1, p.2.map BSDF_Worker.distance_map))

/-- The record of target cell `(t_i, t_j)`, that is `t[t_j * t_width + t_i]`,
for a cell of the worker's grid. -/
def cell_at (worker : BSDF_Worker) (t_i t_j : Int) : Option ED :=
  if 0 ≤ t_i ∧ t_i < worker.width ∧ 0 ≤ t_j ∧ t_j < worker.rows then
    worker.distance_map[(t_j * worker.width + t_i).toNat]?
  else none

/-- The sample of the source pixel at column `col`, row `row`: the byte at
offset `row * width + col` of the buffer. -/
def source_pixel (source : FT_Bitmap) (col row : Int) : Option FT_Byte :=
  load_byte source.buffer (row * source.width + col)

/-- The value the loop body assigns to the `dist` of cell `(t_i, t_j)`: the
sentinel for padding, the converted sample otherwise (`none` when the sample
cannot be read). -/
def gray_cell_value (source : FT_Bitmap) (worker : BSDF_Worker) (x_diff y_diff : Int)
    (t_j t_i : Int) : Option Int :=
  if t_i - x_diff < 0 ∨ t_i - x_diff ≥ source.width ∨
      t_j - y_diff < 0 ∨ t_j - y_diff ≥ source.rows then
    some FT_INT_MAX
  else
    (load_byte source.buffer
      (if worker.params.flip_y then
        (source.rows - (t_j - y_diff) - 1) * source.width + (t_i - x_diff)
      else (t_j - y_diff) * source.width + (t_i - x_diff))).map gray_pixel_value

/-- The distance map `t` after the first `m` cells (row-major, rows of `tw`
cells) of the map `t0` have been seeded. -/
def Seeded (source : FT_Bitmap) (worker : BSDF_Worker) (x_diff y_diff : Int)
    (t0 : List ED) (m : Nat) (t : List ED) : Prop :=
  t.length = t0.length ∧
  (∀ k, m ≤ k → t[k]? = t0[k]?) ∧
  ∀ k, k < m → ∃ e0 v, t0[k]? = some e0 ∧
    gray_cell_value source worker x_diff y_diff
      ((k / worker.width.toNat : Nat) : Int) ((k % worker.width.toNat : Nat) : Int) = some v ∧
    t[k]? = some { e0 with dist := v }

/-! ## Concrete inputs -/

/-- A record with recognisable prior contents. -/
def ex_record : ED := { dist := 7, near := { x := 1, y := 2 } }

/-- A 2 x 2 GRAY source with the samples 10, 255 / 128, 0. -/
def ex_source : FT_Bitmap :=
  { rows := 2, width := 2, pitch := 2, buffer := [10, 255, 128, 0],
    pixel_mode := FT_Pixel_Mode.GRAY }

def ex_params (flip_y : Bool) : SDF_Raster_Params :=
  { root := { target := none, source := none, flags := 0 }, spread := 8, flip_y := flip_y }

/-- A worker with a 5 x 4 grid. -/
def ex_worker (flip_y : Bool) : BSDF_Worker :=
  { distance_map := List.replicate 20 ex_record, width := 5, rows := 4,
    params := ex_params flip_y }

/-- The distance map of `ex_worker` seeded from `ex_source`, `flip_y` off. -/
def ex_seeded : List ED :=
  [2147483647, 2147483647, 2147483647, 2147483647, 2147483647,
   2147483647, 2560, 0, 2147483647, 2147483647,
   2147483647, -32768, 0, 2147483647, 2147483647,
   2147483647, 2147483647, 2147483647, 2147483647, 2147483647].map
    (fun d => { ex_record with dist := d })

/-- The distance map of `ex_worker` seeded from `ex_source`, `flip_y` on. -/
def ex_seeded_flip : List ED :=
  [2147483647, 2147483647, 2147483647, 2147483647, 2147483647,
   2147483647, -32768, 0, 2147483647, 2147483647,
   2147483647, 2560, 0, 2147483647, 2147483647,
   2147483647, 2147483647, 2147483647, 2147483647, 2147483647].map
    (fun d => { ex_record with dist := d })

/-- A 1 x 1 GRAY source whose only sample is 255. -/
def ex_full : FT_Bitmap :=
  { rows := 1, width := 1, pitch := 1, buffer := [255], pixel_mode := FT_Pixel_Mode.GRAY }

/-- A 1 x 2 GRAY source with the samples 255, 0. -/
def ex_ends : FT_Bitmap :=
  { rows := 1, width := 2, pitch := 2, buffer := [255, 0], pixel_mode := FT_Pixel_Mode.GRAY }

/-- A 1 x 1 GRAY source whose only sample is 128. -/
def ex_half : FT_Bitmap :=
  { rows := 1, width := 1, pitch := 1, buffer := [128], pixel_mode := FT_Pixel_Mode.GRAY }

/-- A worker whose grid has `width` cells in one row. -/
def ex_row_worker (width : Nat) : BSDF_Worker :=
  { distance_map := List.replicate width ex_record, width := width, rows := 1,
    params := ex_params false }

/-- A GRAY source without pixels. -/
def ex_empty : FT_Bitmap :=
  { rows := 0, width := 0, pitch := 0, buffer := [], pixel_mode := FT_Pixel_Mode.GRAY }

/-- A worker whose grid has no cell. -/
def ex_empty_worker : BSDF_Worker :=
  { distance_map := [], width := 0, rows := 0, params := ex_params false }

/-- Values for the constants: spreads 2 to 32, flag 8. -/
def ex_constants : SDF_Constants :=
  { MIN_SPREAD := 2, MAX_SPREAD := 32, FT_RASTER_FLAG_SDF := 8 }

/-- An allocator that never fails. -/
def ex_memory : FT_Memory :=
  { qalloc := fun count item =>
      (FT_Error.FT_Err_Ok, List.replicate (count * item).toNat ex_record) }

/-- A 5 x 4 target bitmap. -/
def ex_target : FT_Bitmap :=
  { rows := 4, width := 5, pitch := 5, buffer := List.replicate 20 0,
    pixel_mode := FT_Pixel_Mode.GRAY }

/-- Parameters that pass every check of `bsdf_raster_render` under
`ex_constants`, with a 2 x 2 MONO source. -/
def ex_render_params : SDF_Raster_Params :=
  { root := { target := some ex_target,
              source := some { ex_source with pixel_mode := FT_Pixel_Mode.MONO },
              flags := 8 },
    spread := 8, flip_y := false }

/-! ## Notions used to state the properties of `bsdf_raster_render` -/

/-- The exit of `bsdf_raster_render` after a rejected check: the error, no
request to the allocator, no call of `bsdf_init_distance_map`, the target as
it was. -/
def rejected (error : FT_Error) (target : Option FT_Bitmap) : Render_Exit :=
  { error := error, allocated := none, worker := none, target := target }

/-- An allocator that always fails: `Out_Of_Memory` and a null pointer. -/
def ex_failing_memory : FT_Memory :=
  { qalloc := fun _ _ => (FT_Error.Out_Of_Memory, []) }

/-- The parameters `ex_render_params` with the GRAY source `ex_source`. -/
def ex_render_params_gray : SDF_Raster_Params :=
  { ex_render_params with
    root := { ex_render_params.root with source := some ex_source } }

/-- The worker `ex_worker false` over a distance map with other prior
contents. -/
def ex_worker_other : BSDF_Worker :=
  { ex_worker false with
    distance_map := List.replicate 20 { dist := 9, near := { x := 0, y := 0 } } }

/-! ## Notions used to state the placement of the source in the grid -/

/-- The number of indices `t` below `t_dim` for which the test `s < 0` of the
padding condition (line 190) holds, where `s = t - diff` and `diff` is
`t_dim - s_dim` halved as on lines 140-144: with the widths, the padding
columns on the left; with the rows, the padding rows at the top. -/
def padding_before (t_dim s_dim : Int) : Nat :=
  (List.range t_dim.toNat).countP
    (fun (t : Nat) => decide ((t : Int) - (t_dim - s_dim).tdiv 2 < 0))

/-- The number of indices `t` below `t_dim` for which the test `s >= s_dim` of
the padding condition (line 190) holds: with the widths, the padding columns
on the right; with the rows, the padding rows at the bottom. -/
def padding_after (t_dim s_dim : Int) : Nat :=
  (List.range t_dim.toNat).countP
    (fun (t : Nat) => decide ((t : Int) - (t_dim - s_dim).tdiv 2 ≥ s_dim))

/-- Whether every cell of column `t_i` of the grid holds the sentinel. -/
def column_is_sentinel (worker : BSDF_Worker) (t_i : Nat) : Bool :=
  (List.range worker.rows.toNat).all
    (fun (t_j : Nat) =>
      decide ((cell_at worker (t_i : Int) (t_j : Int)).map ED.dist = some FT_INT_MAX))

/-- Whether every cell of row `t_j` of the grid holds the sentinel. -/
def row_is_sentinel (worker : BSDF_Worker) (t_j : Nat) : Bool :=
  (List.range worker.width.toNat).all
    (fun (t_i : Nat) =>
      decide ((cell_at worker (t_i : Int) (t_j : Int)).map ED.dist = some FT_INT_MAX))

/-- The number of columns of the grid that hold the sentinel in every cell and
lie to the left of the mapped source region (`s_i < 0`). -/
def sentinel_columns_left (source : FT_Bitmap) (worker : BSDF_Worker) : Nat :=
  (List.range worker.width.toNat).countP
    (fun (t_i : Nat) =>
      decide ((t_i : Int) - (worker.width - source.width).tdiv 2 < 0) &&
        column_is_sentinel worker t_i)

/-- The number of columns of the grid that hold the sentinel in every cell and
lie to the right of the mapped source region (`s_i >= s_width`). -/
def sentinel_columns_right (source : FT_Bitmap) (worker : BSDF_Worker) : Nat :=
  (List.range worker.width.toNat).countP
    (fun (t_i : Nat) =>
      decide ((t_i : Int) - (worker.width - source.width).tdiv 2 ≥ source.width) &&
        column_is_sentinel worker t_i)

/-- The number of rows of the grid that hold the sentinel in every cell and
lie above the mapped source region (`s_j < 0`). -/
def sentinel_rows_top (source : FT_Bitmap) (worker : BSDF_Worker) : Nat :=
  (List.range worker.rows.toNat).countP
    (fun (t_j : Nat) =>
      decide ((t_j : Int) - (worker.rows - source.rows).tdiv 2 < 0) &&
        row_is_sentinel worker t_j)

/-- The number of rows of the grid that hold the sentinel in every cell and
lie below the mapped source region (`s_j >= s_rows`). -/
def sentinel_rows_bottom (source : FT_Bitmap) (worker : BSDF_Worker) : Nat :=
  (List.range worker.rows.toNat).countP
    (fun (t_j : Nat) =>
      decide ((t_j : Int) - (worker.rows - source.rows).tdiv 2 ≥ source.rows) &&
        row_is_sentinel worker t_j)

/-- A worker whose `width` is negative, as `FT_Int` makes of a target width of
`2 ^ 32 - 1`. -/
def ex_negative_width_worker : BSDF_Worker :=
  { distance_map := [], width := -1, rows := 4, params := ex_params false }

/-- A worker whose `rows` is negative, as `FT_Int` makes of a target with
`2 ^ 32 - 4` rows. -/
def ex_negative_rows_worker : BSDF_Worker :=
  { distance_map := [], width := 5, rows := -4, params := ex_params false }

/-- The column and the row of the source sample the loop body reads for the
cell `(t_i, t_j)` (lines 186-200: the sample is `s[row * s_width + col]`);
`none` for a padding cell. -/
def source_of_cell (source : FT_Bitmap) (worker : BSDF_Worker) (t_i t_j : Int) :
    Option (Int × Int) :=
  let x_diff := (worker.width - source.width).tdiv 2
  let y_diff := (worker.rows - source.rows).tdiv 2
  let s_i := t_i - x_diff
  let s_j := t_j - y_diff
  if s_i < 0 ∨ s_i ≥ source.width ∨ s_j < 0 ∨ s_j ≥ source.rows then none
  else some (s_i, if worker.params.flip_y then source.rows - s_j - 1 else s_j)

/-- The values `t_index = t_j * t_width + t_i` of the cells the loops write,
in the order of the loops (lines 177-181). -/
def visited_indices (worker : BSDF_Worker) : List Int :=
  (List.range worker.rows.toNat).flatMap
    (fun (j : Nat) => (List.range worker.width.toNat).map
      (fun (i : Nat) => (j : Int) * worker.width + (i : Int)))

/-- The number of cells of the grid whose `dist` is not the sentinel. -/
def seeded_cells (worker : BSDF_Worker) : Nat :=
  (List.range (worker.rows.toNat * worker.width.toNat)).countP
    (fun (k : Nat) =>
      match worker.distance_map[k]? with
      | some e => decide (e.dist ≠ FT_INT_MAX)
      | none => false)

/-- The number of cells of the grid whose `dist` is the sentinel. -/
def sentinel_cells (worker : BSDF_Worker) : Nat :=
  (List.range (worker.rows.toNat * worker.width.toNat)).countP
    (fun (k : Nat) =>
      match worker.distance_map[k]? with
      | some e => decide (e.dist = FT_INT_MAX)
      | none => false)

/-! ## Loops: invariants of a counted loop -/

/-- A counted loop that completes carries an invariant from 0 to its bound. -/
theorem foldlM_range_inv {σ : Type} (f : σ → Nat → Option σ) (Inv : Nat → σ → Prop)
    (n : Nat)
    (hstep : ∀ i, i < n → ∀ s s', Inv i s → f s i = some s' → Inv (i + 1) s') :
    ∀ s s', Inv 0 s → (List.range n).foldlM f s = some s' → Inv n s' := by
  induction n with
  | zero =>
    intro s s' h0 h
    simp at h
    subst h
    exact h0
  | succ n ih =>
    intro s s' h0 h
    rw [List.range_succ, List.foldlM_append] at h
    cases hmid : (List.range n).foldlM f s with
    | none => simp [hmid] at h
    | some mid =>
      simp [hmid] at h
      have hn := ih (fun i hi => hstep i (Nat.lt_succ_of_lt hi)) s mid h0 hmid
      cases hlast : f mid n with
      | none => simp [hlast] at h
      | some last =>
        simp [hlast] at h
        subst h
        exact hstep n (Nat.lt_succ_self n) mid last hn hlast

/-- A counted loop whose every step succeeds under the invariant completes. -/
theorem foldlM_range_total {σ : Type} (f : σ → Nat → Option σ) (Inv : Nat → σ → Prop)
    (n : Nat)
    (hstep : ∀ i, i < n → ∀ s, Inv i s → ∃ s', f s i = some s' ∧ Inv (i + 1) s') :
    ∀ s, Inv 0 s → ∃ s', (List.range n).foldlM f s = some s' ∧ Inv n s' := by
  induction n with
  | zero =>
    intro s h0
    exact ⟨s, by simp, h0⟩
  | succ n ih =>
    intro s h0
    obtain ⟨mid, hmid, hn⟩ := ih (fun i hi => hstep i (Nat.lt_succ_of_lt hi)) s h0
    obtain ⟨last, hlast, hl⟩ := hstep n (Nat.lt_succ_self n) mid hn
    refine ⟨last, ?_, hl⟩
    rw [List.range_succ, List.foldlM_append, hmid]
    simp [hlast]

/-- Two counted loops whose bodies agree below the bound agree. -/
theorem foldlM_range_congr {σ : Type} (f g : σ → Nat → Option σ) (n : Nat)
    (hfg : ∀ i, i < n → ∀ s, f s i = g s i) :
    ∀ s, (List.range n).foldlM f s = (List.range n).foldlM g s := by
  induction n with
  | zero => intro s; rfl
  | succ n ih =>
    intro s
    rw [List.range_succ, List.foldlM_append, List.foldlM_append,
      ih (fun i hi => hfg i (Nat.lt_succ_of_lt hi)) s]
    cases (List.range n).foldlM g s with
    | none => rfl
    | some mid => simp [hfg n (Nat.lt_succ_self n) mid]

/-! ## The loops of `bsdf_init_distance_map` -/

theorem gray_cell_eq (source : FT_Bitmap) (worker : BSDF_Worker) (x_diff y_diff : Int)
    (t_j t_i : Int) (t : List ED) :
    gray_cell source worker x_diff y_diff t_j t_i t =
      match gray_cell_value source worker x_diff y_diff t_j t_i with
      | none => none
      | some v => store_dist t (t_j * worker.width + t_i) v := by
  unfold gray_cell gray_cell_value
  by_cases hpad : t_i - x_diff < 0 ∨ t_i - x_diff ≥ source.width ∨
      t_j - y_diff < 0 ∨ t_j - y_diff ≥ source.rows
  · simp only [hpad, if_true]
  · simp only [hpad, if_false]
    cases load_byte source.buffer
      (if worker.params.flip_y then
        (source.rows - (t_j - y_diff) - 1) * source.width + (t_i - x_diff)
      else (t_j - y_diff) * source.width + (t_i - x_diff)) <;> rfl

theorem store_dist_some {t t' : List ED} {k : Nat} {v : Int}
    (h : store_dist t (k : Int) v = some t') :
    ∃ e, t[k]? = some e ∧ t' = t.set k { e with dist := v } := by
  unfold store_dist at h
  by_cases hr : 0 ≤ (k : Int) ∧ (k : Int) ≤ FT_INT_MAX
  · rw [if_pos hr, Int.toNat_natCast] at h
    cases he : t[k]? with
    | none => simp [he] at h
    | some e =>
      simp only [he] at h
      exact ⟨e, rfl, (Option.some.inj h).symm⟩
  · rw [if_neg hr] at h
    exact absurd h (by simp)

theorem store_dist_of_some {t : List ED} {k : Nat} {e : ED} (v : Int)
    (he : t[k]? = some e) (hk : (k : Int) ≤ FT_INT_MAX) :
    store_dist t (k : Int) v = some (t.set k { e with dist := v }) := by
  unfold store_dist
  have hr : 0 ≤ (k : Int) ∧ (k : Int) ≤ FT_INT_MAX := ⟨Int.natCast_nonneg k, hk⟩
  rw [if_pos hr, Int.toNat_natCast, he]

theorem cell_index_div (j i tw : Nat) (hi : i < tw) : (j * tw + i) / tw = j := by
  have htw : 0 < tw := Nat.lt_of_le_of_lt (Nat.zero_le i) hi
  rw [Nat.add_comm, Nat.add_mul_div_right _ _ htw, Nat.div_eq_of_lt hi, Nat.zero_add]

theorem cell_index_mod (j i tw : Nat) (hi : i < tw) : (j * tw + i) % tw = i := by
  rw [Nat.add_comm, Nat.add_mul_mod_self_right, Nat.mod_eq_of_lt hi]

theorem cell_index_cast (worker : BSDF_Worker) (j i : Nat) (hi : i < worker.width.toNat) :
    (j : Int) * worker.width + (i : Int) = ((j * worker.width.toNat + i : Nat) : Int) := by
  have hw : ((worker.width.toNat : Nat) : Int) = worker.width :=
    Int.toNat_of_nonneg (by omega)
  push_cast
  rw [hw]

theorem seeded_step (source : FT_Bitmap) (worker : BSDF_Worker) (x_diff y_diff : Int)
    (t0 t t' : List ED) (j i : Nat) (hi : i < worker.width.toNat)
    (hinv : Seeded source worker x_diff y_diff t0 (j * worker.width.toNat + i) t)
    (h : gray_cell source worker x_diff y_diff (j : Int) (i : Int) t = some t') :
    Seeded source worker x_diff y_diff t0 (j * worker.width.toNat + i + 1) t' := by
  rw [gray_cell_eq] at h
  cases hv : gray_cell_value source worker x_diff y_diff (j : Int) (i : Int) with
  | none => simp [hv] at h
  | some v =>
    simp only [hv] at h
    rw [cell_index_cast worker j i hi] at h
    obtain ⟨e, he, ht'⟩ := store_dist_some h
    obtain ⟨hlen, hrest, hdone⟩ := hinv
    have hm : j * worker.width.toNat + i < t.length := by
      rcases List.getElem?_eq_some.mp he with ⟨hlt, _⟩
      exact hlt
    subst ht'
    refine ⟨by rw [List.length_set]; exact hlen, ?_, ?_⟩
    · intro k hk
      rw [List.getElem?_set_ne (by omega)]
      exact hrest k (by omega)
    · intro k hk
      by_cases hkm : k = j * worker.width.toNat + i
      · subst hkm
        refine ⟨e, v, ?_, ?_, ?_⟩
        · rw [← hrest _ (Nat.le_refl _)]; exact he
        · rw [cell_index_div j i _ hi, cell_index_mod j i _ hi]; exact hv
        · rw [List.getElem?_set_self hm]
      · obtain ⟨e0, v0, h0, hv0, ht⟩ := hdone k (by omega)
        refine ⟨e0, v0, h0, hv0, ?_⟩
        rw [List.getElem?_set_ne (fun hh => hkm hh.symm)]
        exact ht

theorem seeded_row (source : FT_Bitmap) (worker : BSDF_Worker) (x_diff y_diff : Int)
    (t0 t t' : List ED) (j : Nat)
    (hinv : Seeded source worker x_diff y_diff t0 (j * worker.width.toNat) t)
    (h : gray_row source worker x_diff y_diff (j : Int) t = some t') :
    Seeded source worker x_diff y_diff t0 ((j + 1) * worker.width.toNat) t' := by
  unfold gray_row at h
  have key := foldlM_range_inv
    (fun t i => gray_cell source worker x_diff y_diff (j : Int) (i : Int) t)
    (fun i s => Seeded source worker x_diff y_diff t0 (j * worker.width.toNat + i) s)
    worker.width.toNat
    (fun i hi s s' hs hstep => seeded_step source worker x_diff y_diff t0 s s' j i hi hs hstep)
    t t' hinv h
  have hmul : (j + 1) * worker.width.toNat = j * worker.width.toNat + worker.width.toNat := by
    ring
  rw [hmul]
  exact key

theorem seeded_rows (source : FT_Bitmap) (worker : BSDF_Worker) (x_diff y_diff : Int)
    (t0 t' : List ED)
    (h : gray_rows source worker x_diff y_diff t0 = some t') :
    Seeded source worker x_diff y_diff t0 (worker.rows.toNat * worker.width.toNat) t' := by
  unfold gray_rows at h
  refine foldlM_range_inv
    (fun t j => gray_row source worker x_diff y_diff (j : Int) t)
    (fun j s => Seeded source worker x_diff y_diff t0 (j * worker.width.toNat) s)
    worker.rows.toNat
    (fun j _ s s' hs hstep => seeded_row source worker x_diff y_diff t0 s s' j hs hstep)
    t0 t' ?_ h
  refine ⟨rfl, fun k _ => rfl, fun k hk => ?_⟩
  omega

/-- A worker dimension at least as large as the source's passes the size
test. -/
theorem size_test_of_le {t s : Int} (h : s ≤ t) : ¬ (to_unsigned t < s) := by
  unfold to_unsigned
  split_ifs <;> omega

/-- A non-negative worker dimension that passes the size test is at least as
large as the source's. -/
theorem le_of_size_test {t s : Int} (ht : 0 ≤ t) (h : ¬ (to_unsigned t < s)) : s ≤ t := by
  unfold to_unsigned at h
  rw [if_neg (by omega)] at h
  omega

theorem init_ok_inv {source : FT_Bitmap} {worker : BSDF_Worker}
    {r : Option BSDF_Worker}
    (h : bsdf_init_distance_map (some source) (some worker) = some (FT_Error.FT_Err_Ok, r)) :
    source.pixel_mode = FT_Pixel_Mode.GRAY ∧
    ¬ (to_unsigned worker.width < source.width) ∧
    ¬ (to_unsigned worker.rows < source.rows) ∧
    ∃ t, gray_rows source worker ((worker.width - source.width).tdiv 2)
        ((worker.rows - source.rows).tdiv 2) worker.distance_map = some t ∧
      r = some { worker with distance_map := t } := by
  unfold bsdf_init_distance_map at h
  simp only at h
  by_cases hfit : to_unsigned worker.width < source.width ∨
      to_unsigned worker.rows < source.rows
  · rw [if_pos hfit] at h
    simp at h
  · rw [if_neg hfit] at h
    by_cases hnone : source.pixel_mode = FT_Pixel_Mode.NONE
    · rw [if_pos hnone] at h
      simp at h
    · rw [if_neg hnone] at h
      cases hm : source.pixel_mode with
      | GRAY =>
        simp only [hm] at h
        refine ⟨rfl, fun hc => hfit (Or.inl hc), fun hc => hfit (Or.inr hc), ?_⟩
        cases hr : gray_rows source worker ((worker.width - source.width).tdiv 2)
            ((worker.rows - source.rows).tdiv 2) worker.distance_map with
        | none => simp [hr] at h
        | some t =>
          simp only [hr] at h
          refine ⟨t, rfl, ?_⟩
          have := Option.some.inj h
          exact (Prod.mk.inj this).2.symm
      | NONE => exact absurd hm hnone
      | MONO => simp [hm] at h
      | GRAY2 => simp [hm] at h
      | GRAY4 => simp [hm] at h
      | GRAY16 => simp [hm] at h
      | LCD => simp [hm] at h
      | LCD_V => simp [hm] at h
      | OTHER c => simp [hm] at h

/-- After a run that returns `FT_Err_Ok`, every cell of the grid holds its
former record with `dist` replaced by the value of `gray_cell_value`. -/
theorem cell_after_init {source : FT_Bitmap} {worker worker' : BSDF_Worker}
    (h : bsdf_init_distance_map (some source) (some worker) =
      some (FT_Error.FT_Err_Ok, some worker'))
    (t_i t_j : Int) (hi : 0 ≤ t_i ∧ t_i < worker.width) (hj : 0 ≤ t_j ∧ t_j < worker.rows) :
    ∃ e0 v, cell_at worker t_i t_j = some e0 ∧
      gray_cell_value source worker ((worker.width - source.width).tdiv 2)
        ((worker.rows - source.rows).tdiv 2) t_j t_i = some v ∧
      cell_at worker' t_i t_j = some { e0 with dist := v } := by
  obtain ⟨_, _, _, t, hrows, hw'⟩ := init_ok_inv h
  have hw'' : worker' = { worker with distance_map := t } := (Option.some.inj hw').symm ▸ rfl
  obtain ⟨_, _, hdone⟩ := seeded_rows source worker _ _ worker.distance_map t hrows
  have hiN : t_i.toNat < worker.width.toNat := by omega
  have hjN : t_j.toNat < worker.rows.toNat := by omega
  have hk : t_j.toNat * worker.width.toNat + t_i.toNat <
      worker.rows.toNat * worker.width.toNat := by
    have := Nat.mul_le_mul_right worker.width.toNat (Nat.succ_le_of_lt hjN)
    rw [Nat.succ_mul] at this
    omega
  obtain ⟨e0, v, h0, hv, ht⟩ := hdone _ hk
  rw [cell_index_div _ _ _ hiN, cell_index_mod _ _ _ hiN] at hv
  have hti : ((t_i.toNat : Nat) : Int) = t_i := Int.toNat_of_nonneg hi.1
  have htj : ((t_j.toNat : Nat) : Int) = t_j := Int.toNat_of_nonneg hj.1
  rw [hti, htj] at hv
  have hidx : (t_j * worker.width + t_i).toNat =
      t_j.toNat * worker.width.toNat + t_i.toNat := by
    have := cell_index_cast worker t_j.toNat t_i.toNat hiN
    rw [hti, htj] at this
    rw [this, Int.toNat_natCast]
  refine ⟨e0, v, ?_, hv, ?_⟩
  · unfold cell_at
    rw [if_pos ⟨hi.1, hi.2, hj.1, hj.2⟩, hidx]
    exact h0
  · subst hw''
    unfold cell_at
    rw [if_pos ⟨hi.1, hi.2, hj.1, hj.2⟩, hidx]
    exact ht

theorem to_FT_Short_range (v : Int) : -32768 ≤ to_FT_Short v ∧ to_FT_Short v ≤ 32767 := by
  unfold to_FT_Short
  omega

theorem gray_pixel_value_ne_sentinel (b : FT_Byte) : gray_pixel_value b ≠ FT_INT_MAX := by
  have := to_FT_Short_range
    ((if to_FT_Short (b.val : Int) = 255 then 256 else to_FT_Short (b.val : Int)) * 2 ^ 8)
  unfold gray_pixel_value FT_INT_MAX
  simp only
  omega

theorem load_byte_row_col (buf : List FT_Byte) (H W r c : Nat) (hr : r < H) (hc : c < W)
    (hmax : ((H * W : Nat) : Int) ≤ FT_INT_MAX + 1) :
    load_byte buf ((r : Int) * (W : Int) + (c : Int)) = buf[r * W + c]? := by
  have hlt : r * W + c < H * W := by
    have := Nat.mul_le_mul_right W (Nat.succ_le_of_lt hr)
    rw [Nat.succ_mul] at this
    omega
  have hcast : (r : Int) * (W : Int) + (c : Int) = ((r * W + c : Nat) : Int) := by
    push_cast
    rfl
  unfold load_byte
  rw [hcast, if_pos ⟨Int.natCast_nonneg _, by omega⟩, Int.toNat_natCast]

theorem reverse_rows_load (source : FT_Bitmap) (s_i s_j : Int)
    (hi : 0 ≤ s_i ∧ s_i < source.width) (hj : 0 ≤ s_j ∧ s_j < source.rows)
    (hlen : source.rows.toNat * source.width.toNat ≤ source.buffer.length)
    (hmax : source.rows * source.width ≤ FT_INT_MAX) :
    load_byte (reverse_rows source).buffer (s_j * source.width + s_i) =
      load_byte source.buffer ((source.rows - s_j - 1) * source.width + s_i) := by
  have hW : ((source.width.toNat : Nat) : Int) = source.width := Int.toNat_of_nonneg (by omega)
  have hH : ((source.rows.toNat : Nat) : Int) = source.rows := Int.toNat_of_nonneg (by omega)
  have hc : ((s_i.toNat : Nat) : Int) = s_i := Int.toNat_of_nonneg hi.1
  have hr : ((s_j.toNat : Nat) : Int) = s_j := Int.toNat_of_nonneg hj.1
  have hcN : s_i.toNat < source.width.toNat := by omega
  have hrN : s_j.toNat < source.rows.toNat := by omega
  have hr' : (((source.rows.toNat - s_j.toNat - 1 : Nat)) : Int) = source.rows - s_j - 1 := by
    omega
  have hmaxN : ((source.rows.toNat * source.width.toNat : Nat) : Int) ≤ FT_INT_MAX + 1 := by
    push_cast
    rw [hW, hH]
    omega
  have h1 := load_byte_row_col (reverse_rows source).buffer source.rows.toNat
    source.width.toNat s_j.toNat s_i.toNat hrN hcN hmaxN
  have h2 := load_byte_row_col source.buffer source.rows.toNat
    source.width.toNat (source.rows.toNat - s_j.toNat - 1) s_i.toNat (by omega) hcN hmaxN
  rw [hW, hc, hr] at h1
  rw [hW, hc, hr'] at h2
  rw [h1, h2]
  have hk : s_j.toNat * source.width.toNat + s_i.toNat <
      source.rows.toNat * source.width.toNat := by
    have := Nat.mul_le_mul_right source.width.toNat (Nat.succ_le_of_lt hrN)
    rw [Nat.succ_mul] at this
    omega
  have hk' : (source.rows.toNat - s_j.toNat - 1) * source.width.toNat + s_i.toNat <
      source.buffer.length := by
    have : source.rows.toNat - s_j.toNat - 1 + 1 ≤ source.rows.toNat := by omega
    have := Nat.mul_le_mul_right source.width.toNat this
    rw [Nat.succ_mul] at this
    omega
  unfold reverse_rows
  simp only [List.getElem?_map, List.getElem?_range hk, Option.map_some']
  rw [cell_index_div _ _ _ hcN, cell_index_mod _ _ _ hcN]
  rw [List.getD_eq_getElem?_getD, List.getElem?_eq_getElem hk']
  rfl

theorem gray_cell_flip (source : FT_Bitmap) (worker : BSDF_Worker) (x_diff y_diff : Int)
    (t_j t_i : Int) (t : List ED)
    (hlen : source.rows.toNat * source.width.toNat ≤ source.buffer.length)
    (hmax : source.rows * source.width ≤ FT_INT_MAX) :
    gray_cell source (with_flip_y worker true) x_diff y_diff t_j t_i t =
      gray_cell (reverse_rows source) (with_flip_y worker false) x_diff y_diff t_j t_i t := by
  unfold gray_cell
  by_cases hpad : t_i - x_diff < 0 ∨ t_i - x_diff ≥ source.width ∨
      t_j - y_diff < 0 ∨ t_j - y_diff ≥ source.rows
  · have hpad' : t_i - x_diff < 0 ∨ t_i - x_diff ≥ (reverse_rows source).width ∨
        t_j - y_diff < 0 ∨ t_j - y_diff ≥ (reverse_rows source).rows := hpad
    simp only [hpad, hpad', if_true]
    rfl
  · have hpad' : ¬ (t_i - x_diff < 0 ∨ t_i - x_diff ≥ (reverse_rows source).width ∨
        t_j - y_diff < 0 ∨ t_j - y_diff ≥ (reverse_rows source).rows) := hpad
    simp only [hpad, hpad', if_false]
    have hload := reverse_rows_load source (t_i - x_diff) (t_j - y_diff)
      (by omega) (by omega) hlen hmax
    have hT : (with_flip_y worker true).params.flip_y = true := rfl
    have hF : (with_flip_y worker false).params.flip_y = false := rfl
    have hwid : (reverse_rows source).width = source.width := rfl
    simp only [hT, hF, if_true, Bool.false_eq_true, if_false, hwid, hload]
    rfl

theorem gray_rows_flip (source : FT_Bitmap) (worker : BSDF_Worker) (x_diff y_diff : Int)
    (t : List ED)
    (hlen : source.rows.toNat * source.width.toNat ≤ source.buffer.length)
    (hmax : source.rows * source.width ≤ FT_INT_MAX) :
    gray_rows source (with_flip_y worker true) x_diff y_diff t =
      gray_rows (reverse_rows source) (with_flip_y worker false) x_diff y_diff t := by
  unfold gray_rows
  have hrows : (with_flip_y worker true).rows = (with_flip_y worker false).rows := rfl
  rw [hrows]
  refine foldlM_range_congr _ _ _ (fun j _ s => ?_) t
  unfold gray_row
  have hwid : (with_flip_y worker true).width = (with_flip_y worker false).width := rfl
  rw [hwid]
  exact foldlM_range_congr _ _ _
    (fun i _ s' => gray_cell_flip source worker x_diff y_diff (j : Int) (i : Int) s' hlen hmax) s

theorem unimplemented_of_size_test (source : FT_Bitmap) (worker : BSDF_Worker)
    (hfit : ¬ (to_unsigned worker.width < source.width ∨
      to_unsigned worker.rows < source.rows))
    (hset : source.pixel_mode ≠ FT_Pixel_Mode.NONE)
    (hgray : source.pixel_mode ≠ FT_Pixel_Mode.GRAY) :
    bsdf_init_distance_map (some source) (some worker) =
      some (FT_Error.Unimplemented_Feature, some worker) := by
  unfold bsdf_init_distance_map
  simp only
  rw [if_neg hfit, if_neg hset]
  cases hm : source.pixel_mode with
  | GRAY => exact absurd hm hgray
  | NONE => exact absurd hm hset
  | MONO => rfl
  | GRAY2 => rfl
  | GRAY4 => rfl
  | GRAY16 => rfl
  | LCD => rfl
  | LCD_V => rfl
  | OTHER c => rfl

theorem unimplemented_of_not_gray (source : FT_Bitmap) (worker : BSDF_Worker)
    (hw : source.width ≤ worker.width) (hh : source.rows ≤ worker.rows)
    (hset : source.pixel_mode ≠ FT_Pixel_Mode.NONE)
    (hgray : source.pixel_mode ≠ FT_Pixel_Mode.GRAY) :
    bsdf_init_distance_map (some source) (some worker) =
      some (FT_Error.Unimplemented_Feature, some worker) :=
  unimplemented_of_size_test source worker
    (not_or.mpr ⟨size_test_of_le hw, size_test_of_le hh⟩) hset hgray

theorem invalid_of_small_or_unset (source : FT_Bitmap) (worker : BSDF_Worker)
    (h : to_unsigned worker.width < source.width ∨
      to_unsigned worker.rows < source.rows ∨
      source.pixel_mode = FT_Pixel_Mode.NONE) :
    bsdf_init_distance_map (some source) (some worker) =
      some (FT_Error.Invalid_Argument, some worker) := by
  unfold bsdf_init_distance_map
  simp only
  by_cases hfit : to_unsigned worker.width < source.width ∨
      to_unsigned worker.rows < source.rows
  · rw [if_pos hfit]
  · rw [if_neg hfit]
    have hnone : source.pixel_mode = FT_Pixel_Mode.NONE := by
      rcases h with h | h | h
      · exact absurd (Or.inl h) hfit
      · exact absurd (Or.inr h) hfit
      · exact h
    rw [if_pos hnone]

theorem load_byte_some (source : FT_Bitmap) (r c : Int)
    (hr : 0 ≤ r ∧ r < source.rows) (hc : 0 ≤ c ∧ c < source.width)
    (hlen : source.rows.toNat * source.width.toNat ≤ source.buffer.length)
    (hmax : source.rows * source.width ≤ FT_INT_MAX) :
    ∃ b, load_byte source.buffer (r * source.width + c) = some b := by
  have hW : ((source.width.toNat : Nat) : Int) = source.width := Int.toNat_of_nonneg (by omega)
  have hH : ((source.rows.toNat : Nat) : Int) = source.rows := Int.toNat_of_nonneg (by omega)
  have hcc : ((c.toNat : Nat) : Int) = c := Int.toNat_of_nonneg hc.1
  have hrr : ((r.toNat : Nat) : Int) = r := Int.toNat_of_nonneg hr.1
  have hcN : c.toNat < source.width.toNat := by omega
  have hrN : r.toNat < source.rows.toNat := by omega
  have hmaxN : ((source.rows.toNat * source.width.toNat : Nat) : Int) ≤ FT_INT_MAX + 1 := by
    push_cast
    rw [hW, hH]
    omega
  have h1 := load_byte_row_col source.buffer source.rows.toNat source.width.toNat
    r.toNat c.toNat hrN hcN hmaxN
  rw [hW, hcc, hrr] at h1
  have hk : r.toNat * source.width.toNat + c.toNat < source.buffer.length := by
    have := Nat.mul_le_mul_right source.width.toNat (Nat.succ_le_of_lt hrN)
    rw [Nat.succ_mul] at this
    omega
  exact ⟨source.buffer[r.toNat * source.width.toNat + c.toNat], by
    rw [h1, List.getElem?_eq_getElem hk]⟩

theorem gray_cell_value_some (source : FT_Bitmap) (worker : BSDF_Worker)
    (x_diff y_diff t_j t_i : Int)
    (hlen : source.rows.toNat * source.width.toNat ≤ source.buffer.length)
    (hmax : source.rows * source.width ≤ FT_INT_MAX) :
    ∃ v, gray_cell_value source worker x_diff y_diff t_j t_i = some v := by
  unfold gray_cell_value
  by_cases hpad : t_i - x_diff < 0 ∨ t_i - x_diff ≥ source.width ∨
      t_j - y_diff < 0 ∨ t_j - y_diff ≥ source.rows
  · rw [if_pos hpad]
    exact ⟨_, rfl⟩
  · rw [if_neg hpad]
    cases hf : worker.params.flip_y with
    | true =>
      obtain ⟨b, hb⟩ := load_byte_some source (source.rows - (t_j - y_diff) - 1)
        (t_i - x_diff) (by omega) (by omega) hlen hmax
      simp only [if_true, hb, Option.map_some']
      exact ⟨_, rfl⟩
    | false =>
      obtain ⟨b, hb⟩ := load_byte_some source (t_j - y_diff) (t_i - x_diff)
        (by omega) (by omega) hlen hmax
      simp only [Bool.false_eq_true, if_false, hb, Option.map_some']
      exact ⟨_, rfl⟩

theorem gray_cell_total (source : FT_Bitmap) (worker : BSDF_Worker) (x_diff y_diff : Int)
    (t : List ED) (j i : Nat) (hj : j < worker.rows.toNat) (hi : i < worker.width.toNat)
    (hlen : source.rows.toNat * source.width.toNat ≤ source.buffer.length)
    (hmax : source.rows * source.width ≤ FT_INT_MAX)
    (htlen : worker.rows.toNat * worker.width.toNat ≤ t.length)
    (htmax : worker.rows * worker.width ≤ FT_INT_MAX) :
    ∃ t', gray_cell source worker x_diff y_diff (j : Int) (i : Int) t = some t' ∧
      t'.length = t.length := by
  obtain ⟨v, hv⟩ := gray_cell_value_some source worker x_diff y_diff (j : Int) (i : Int)
    hlen hmax
  rw [gray_cell_eq, hv, cell_index_cast worker j i hi]
  have hk : j * worker.width.toNat + i < worker.rows.toNat * worker.width.toNat := by
    have := Nat.mul_le_mul_right worker.width.toNat (Nat.succ_le_of_lt hj)
    rw [Nat.succ_mul] at this
    omega
  have hW : ((worker.width.toNat : Nat) : Int) = worker.width := Int.toNat_of_nonneg (by omega)
  have hH : ((worker.rows.toNat : Nat) : Int) = worker.rows := Int.toNat_of_nonneg (by omega)
  have hkmax : ((j * worker.width.toNat + i : Nat) : Int) ≤ FT_INT_MAX := by
    have h1 : ((j * worker.width.toNat + i : Nat) : Int) <
        ((worker.rows.toNat * worker.width.toNat : Nat) : Int) := by exact_mod_cast hk
    have h2 : ((worker.rows.toNat * worker.width.toNat : Nat) : Int) =
        worker.rows * worker.width := by
      push_cast
      rw [hW, hH]
    omega
  have hkl : j * worker.width.toNat + i < t.length := by omega
  refine ⟨_, store_dist_of_some v (List.getElem?_eq_getElem hkl) hkmax, ?_⟩
  rw [List.length_set]

/-- The loops complete when the source buffer holds the `rows * width` samples
of the source, the distance map holds the `rows * width` records of the grid,
and both products are `FT_Int` values. -/
theorem gray_rows_total (source : FT_Bitmap) (worker : BSDF_Worker) (x_diff y_diff : Int)
    (t0 : List ED)
    (hlen : source.rows.toNat * source.width.toNat ≤ source.buffer.length)
    (hmax : source.rows * source.width ≤ FT_INT_MAX)
    (htlen : worker.rows.toNat * worker.width.toNat ≤ t0.length)
    (htmax : worker.rows * worker.width ≤ FT_INT_MAX) :
    ∃ t, gray_rows source worker x_diff y_diff t0 = some t ∧ t.length = t0.length := by
  unfold gray_rows
  refine foldlM_range_total _ (fun _ s => s.length = t0.length) _ (fun j hj s hs => ?_) t0 rfl
  unfold gray_row
  refine foldlM_range_total _ (fun _ s' => s'.length = t0.length) _ (fun i hi s' hs' => ?_) s hs
  obtain ⟨t', ht', hl⟩ := gray_cell_total source worker x_diff y_diff s' j i hj hi hlen hmax
    (by omega) htmax
  exact ⟨t', ht', by omega⟩

/-- On a GRAY source that fits the grid, with the buffers as large as the
dimensions say, `bsdf_init_distance_map` returns `FT_Err_Ok`. -/
theorem init_gray_ok (source : FT_Bitmap) (worker : BSDF_Worker)
    (hmode : source.pixel_mode = FT_Pixel_Mode.GRAY)
    (hw : source.width ≤ worker.width) (hh : source.rows ≤ worker.rows)
    (hlen : source.rows.toNat * source.width.toNat ≤ source.buffer.length)
    (hmax : source.rows * source.width ≤ FT_INT_MAX)
    (htlen : worker.rows.toNat * worker.width.toNat ≤ worker.distance_map.length)
    (htmax : worker.rows * worker.width ≤ FT_INT_MAX) :
    ∃ worker', bsdf_init_distance_map (some source) (some worker) =
      some (FT_Error.FT_Err_Ok, some worker') := by
  obtain ⟨t, ht, _⟩ := gray_rows_total source worker ((worker.width - source.width).tdiv 2)
    ((worker.rows - source.rows).tdiv 2) worker.distance_map hlen hmax htlen htmax
  refine ⟨{ worker with distance_map := t }, ?_⟩
  unfold bsdf_init_distance_map
  simp only
  rw [if_neg (not_or.mpr ⟨size_test_of_le hw, size_test_of_le hh⟩),
    if_neg (by rw [hmode]; decide)]
  simp only [hmode, ht]

/-! ## Properties of `bsdf_init_distance_map` -/

/-- C1: after a run of `bsdf_init_distance_map` that returns `FT_Err_Ok` (which
it does on a GRAY source only, `init_ok_inv`) on a source and a grid at least
as large, with `flip_y` off, every target cell
`(t_i, t_j)` with `0 ≤ t_i - x_diff < s_width` and `0 ≤ t_j - y_diff < s_rows`,
where `x_diff = (t_width - s_width) / 2` and `y_diff = (t_rows - s_rows) / 2`,
is a cell of the grid whose `dist` is the value converted from the source
sample at column `t_i - x_diff`, row `t_j - y_diff`, and that sample exists. -/
theorem source_centred_in_target (source : FT_Bitmap) (worker worker' : BSDF_Worker)
    (t_i t_j : Int)
    (hw : source.width ≤ worker.width) (hh : source.rows ≤ worker.rows)
    (hflip : worker.params.flip_y = false)
    (hrun : bsdf_init_distance_map (some source) (some worker) =
      some (FT_Error.FT_Err_Ok, some worker'))
    (hi : 0 ≤ t_i - (worker.width - source.width) / 2 ∧
      t_i - (worker.width - source.width) / 2 < source.width)
    (hj : 0 ≤ t_j - (worker.rows - source.rows) / 2 ∧
      t_j - (worker.rows - source.rows) / 2 < source.rows) :
    (source_pixel source (t_i - (worker.width - source.width) / 2)
        (t_j - (worker.rows - source.rows) / 2)).isSome = true ∧
    (cell_at worker' t_i t_j).map ED.dist =
      (source_pixel source (t_i - (worker.width - source.width) / 2)
        (t_j - (worker.rows - source.rows) / 2)).map gray_pixel_value := by
  have hx : (worker.width - source.width).tdiv 2 = (worker.width - source.width) / 2 :=
    Int.tdiv_eq_ediv (by omega) (by omega)
  have hy : (worker.rows - source.rows).tdiv 2 = (worker.rows - source.rows) / 2 :=
    Int.tdiv_eq_ediv (by omega) (by omega)
  obtain ⟨e0, v, _, hv, hc⟩ := cell_after_init hrun t_i t_j (by omega) (by omega)
  rw [hx, hy] at hv
  unfold gray_cell_value at hv
  rw [if_neg (by omega), hflip] at hv
  simp only [Bool.false_eq_true, if_false] at hv
  unfold source_pixel
  cases hb : load_byte source.buffer
      ((t_j - (worker.rows - source.rows) / 2) * source.width +
        (t_i - (worker.width - source.width) / 2)) with
  | none => rw [hb] at hv; simp at hv
  | some b =>
    rw [hb] at hv
    rw [hc]
    simp only [Option.map_some', Option.some.injEq] at hv
    simp [hv]

theorem source_centred_in_target_witness :
    (source_pixel ex_source (1 - (5 - 2) / 2) (2 - (4 - 2) / 2)).isSome = true ∧
    (cell_at { ex_worker false with distance_map := ex_seeded } 1 2).map ED.dist =
      (source_pixel ex_source (1 - (5 - 2) / 2) (2 - (4 - 2) / 2)).map gray_pixel_value :=
  source_centred_in_target ex_source (ex_worker false)
    { ex_worker false with distance_map := ex_seeded } 1 2
    (by decide) (by decide) (by decide) (by decide) (by decide) (by decide)

/-- C3: after a run of `bsdf_init_distance_map` that returns `FT_Err_Ok` (which
it does on a GRAY source only, `init_ok_inv`), a cell `(t_i, t_j)` of the target grid has a record, and its
`dist` is the sentinel `FT_INT_MAX` exactly when the cell lies outside the
mapped source region (`t_i - x_diff < 0`, or `≥ s_width`, or
`t_j - y_diff < 0`, or `≥ s_rows`); `flip_y` may be on or off. -/
theorem sentinel_iff_padding (source : FT_Bitmap) (worker worker' : BSDF_Worker)
    (t_i t_j : Int)
    (hrun : bsdf_init_distance_map (some source) (some worker) =
      some (FT_Error.FT_Err_Ok, some worker'))
    (hi : 0 ≤ t_i ∧ t_i < worker.width) (hj : 0 ≤ t_j ∧ t_j < worker.rows) :
    (cell_at worker' t_i t_j).isSome = true ∧
    ((cell_at worker' t_i t_j).map ED.dist = some FT_INT_MAX ↔
      (t_i - (worker.width - source.width) / 2 < 0 ∨
        t_i - (worker.width - source.width) / 2 ≥ source.width ∨
        t_j - (worker.rows - source.rows) / 2 < 0 ∨
        t_j - (worker.rows - source.rows) / 2 ≥ source.rows)) := by
  obtain ⟨_, hw0, hh0, _⟩ := init_ok_inv hrun
  have hw : source.width ≤ worker.width := le_of_size_test (by omega) hw0
  have hh : source.rows ≤ worker.rows := le_of_size_test (by omega) hh0
  have hx : (worker.width - source.width).tdiv 2 = (worker.width - source.width) / 2 :=
    Int.tdiv_eq_ediv (by omega) (by omega)
  have hy : (worker.rows - source.rows).tdiv 2 = (worker.rows - source.rows) / 2 :=
    Int.tdiv_eq_ediv (by omega) (by omega)
  obtain ⟨e0, v, _, hv, hc⟩ := cell_after_init hrun t_i t_j hi hj
  rw [hx, hy] at hv
  rw [hc]
  refine ⟨rfl, ?_⟩
  simp only [Option.map_some', Option.some.injEq]
  unfold gray_cell_value at hv
  by_cases hpad : t_i - (worker.width - source.width) / 2 < 0 ∨
      t_i - (worker.width - source.width) / 2 ≥ source.width ∨
      t_j - (worker.rows - source.rows) / 2 < 0 ∨
      t_j - (worker.rows - source.rows) / 2 ≥ source.rows
  · rw [if_pos hpad] at hv
    exact ⟨fun _ => hpad, fun _ => (Option.some.inj hv).symm⟩
  · rw [if_neg hpad] at hv
    refine ⟨fun hd => ?_, fun hp => absurd hp hpad⟩
    rcases Option.map_eq_some'.mp hv with ⟨b, _, hbv⟩
    exact absurd (hbv.trans hd) (gray_pixel_value_ne_sentinel b)

theorem sentinel_iff_padding_witness :
    (cell_at { ex_worker true with distance_map := ex_seeded_flip } 4 3).isSome = true ∧
    ((cell_at { ex_worker true with distance_map := ex_seeded_flip } 4 3).map ED.dist =
        some FT_INT_MAX ↔
      ((4 : Int) - (5 - 2) / 2 < 0 ∨ (4 : Int) - (5 - 2) / 2 ≥ 2 ∨
        (3 : Int) - (4 - 2) / 2 < 0 ∨ (3 : Int) - (4 - 2) / 2 ≥ 2)) :=
  sentinel_iff_padding ex_source (ex_worker true)
    { ex_worker true with distance_map := ex_seeded_flip } 4 3 (by decide)
    (by decide) (by decide)

/-- C4: for every source whose buffer holds its `rows * width` samples (with
`rows * width` an `FT_Int`) and every worker, `bsdf_init_distance_map` with
`flip_y` on returns the same error and leaves the same distance map, padding
cells included, as `bsdf_init_distance_map` with `flip_y` off on the source
whose rows are reversed (row `y` replaced by row `rows - y - 1`). -/
theorem flip_y_is_row_reversal (source : FT_Bitmap) (worker : BSDF_Worker)
    (hlen : source.rows.toNat * source.width.toNat ≤ source.buffer.length)
    (hmax : source.rows * source.width ≤ FT_INT_MAX) :
    observed (bsdf_init_distance_map (some source) (some (with_flip_y worker true))) =
      observed (bsdf_init_distance_map (some (reverse_rows source))
        (some (with_flip_y worker false))) := by
  have hrows := gray_rows_flip source worker
    ((worker.width - source.width).tdiv 2) ((worker.rows - source.rows).tdiv 2)
    worker.distance_map hlen hmax
  have hmode : (reverse_rows source).pixel_mode = source.pixel_mode := rfl
  have hwid : (reverse_rows source).width = source.width := rfl
  have hrw : (reverse_rows source).rows = source.rows := rfl
  have hTw : (with_flip_y worker true).width = worker.width := rfl
  have hTr : (with_flip_y worker true).rows = worker.rows := rfl
  have hFw : (with_flip_y worker false).width = worker.width := rfl
  have hFr : (with_flip_y worker false).rows = worker.rows := rfl
  have hTd : (with_flip_y worker true).distance_map = worker.distance_map := rfl
  have hFd : (with_flip_y worker false).distance_map = worker.distance_map := rfl
  unfold bsdf_init_distance_map
  simp only [hmode, hwid, hrw, hTw, hTr, hFw, hFr, hTd, hFd]
  by_cases hfit : to_unsigned worker.width < source.width ∨
      to_unsigned worker.rows < source.rows
  · simp only [if_pos hfit]
    rfl
  · simp only [if_neg hfit]
    by_cases hnone : source.pixel_mode = FT_Pixel_Mode.NONE
    · simp only [if_pos hnone]
      rfl
    · simp only [if_neg hnone]
      cases hm : source.pixel_mode with
      | GRAY =>
        simp only [hrows]
        cases gray_rows (reverse_rows source) (with_flip_y worker false)
          ((worker.width - source.width).tdiv 2) ((worker.rows - source.rows).tdiv 2)
          worker.distance_map <;> rfl
      | NONE => rfl
      | MONO => rfl
      | GRAY2 => rfl
      | GRAY4 => rfl
      | GRAY16 => rfl
      | LCD => rfl
      | LCD_V => rfl
      | OTHER c => rfl

theorem flip_y_is_row_reversal_witness :
    (ex_source.rows.toNat * ex_source.width.toNat ≤ ex_source.buffer.length ∧
      ex_source.rows * ex_source.width ≤ FT_INT_MAX) ∧
    observed (bsdf_init_distance_map (some ex_source)
        (some (with_flip_y (ex_worker false) true))) =
      observed (bsdf_init_distance_map (some (reverse_rows ex_source))
        (some (with_flip_y (ex_worker false) false))) ∧
    observed (bsdf_init_distance_map (some ex_source)
        (some (with_flip_y (ex_worker false) true))) =
      some (FT_Error.FT_Err_Ok, some ex_seeded_flip) :=
  ⟨⟨by decide, by decide⟩,
    flip_y_is_row_reversal ex_source (ex_worker false) (by decide) (by decide),
    by decide⟩

/-- C7: for a non-null source and worker with the grid at least as large as
the source, a pixel mode that is set and is not GRAY makes
`bsdf_init_distance_map` return `Unimplemented_Feature` and leave the worker,
its distance map included, as it was. -/
theorem other_pixel_modes_unimplemented (source : FT_Bitmap) (worker : BSDF_Worker)
    (hw : source.width ≤ worker.width) (hh : source.rows ≤ worker.rows)
    (hset : source.pixel_mode ≠ FT_Pixel_Mode.NONE)
    (hgray : source.pixel_mode ≠ FT_Pixel_Mode.GRAY) :
    bsdf_init_distance_map (some source) (some worker) =
      some (FT_Error.Unimplemented_Feature, some worker) :=
  unimplemented_of_not_gray source worker hw hh hset hgray

theorem other_pixel_modes_unimplemented_witness :
    bsdf_init_distance_map (some { ex_source with pixel_mode := FT_Pixel_Mode.LCD })
        (some (ex_worker false)) =
      some (FT_Error.Unimplemented_Feature, some (ex_worker false)) :=
  other_pixel_modes_unimplemented { ex_source with pixel_mode := FT_Pixel_Mode.LCD }
    (ex_worker false) (by decide) (by decide) (by decide) (by decide)

theorem gray_pixel_value_eq (b : FT_Byte) :
    gray_pixel_value b =
      if b.val = 255 then 0
      else if b.val < 128 then (b.val : Int) * 256
      else (b.val : Int) * 256 - 65536 := by
  have hb := b.isLt
  unfold gray_pixel_value to_FT_Short
  have h1 : ((b.val : Int) + 32768) % 65536 - 32768 = (b.val : Int) := by omega
  simp only [h1]
  split_ifs <;> omega

/-- C9 does not hold for zero-sized bitmaps: a GRAY source without pixels and
a grid without cells are accepted, the run returns `FT_Err_Ok`. -/
theorem zero_sized_not_rejected :
    (ex_empty.width = 0 ∧ ex_empty.rows = 0 ∧
      ex_empty_worker.width = 0 ∧ ex_empty_worker.rows = 0) ∧
    bsdf_init_distance_map (some ex_empty) (some ex_empty_worker) =
      some (FT_Error.FT_Err_Ok, some ex_empty_worker) := by
  decide

/-- C9, amended: `bsdf_init_distance_map` returns `Invalid_Argument` exactly
when the source or the worker is null, or the width or the rows of the
worker, read as `unsigned int` as the size test does, is smaller than that of
the source, or the pixel mode is `FT_PIXEL_MODE_NONE`; a zero-sized source or
grid is rejected only through these conditions. -/
theorem invalid_argument_iff (source : Option FT_Bitmap) (worker : Option BSDF_Worker) :
    (bsdf_init_distance_map source worker).map Prod.fst = some FT_Error.Invalid_Argument ↔
      (source = none ∨ worker = none ∨
        ∃ s w, source = some s ∧ worker = some w ∧
          (to_unsigned w.width < s.width ∨ to_unsigned w.rows < s.rows ∨
            s.pixel_mode = FT_Pixel_Mode.NONE)) := by
  cases source with
  | none => simp [bsdf_init_distance_map]
  | some s =>
    cases worker with
    | none => simp [bsdf_init_distance_map]
    | some w =>
      constructor
      · intro h
        refine Or.inr (Or.inr ⟨s, w, rfl, rfl, ?_⟩)
        by_contra hno
        have hfit : ¬ (to_unsigned w.width < s.width ∨ to_unsigned w.rows < s.rows) :=
          fun hf => hno (hf.elim Or.inl (fun hr => Or.inr (Or.inl hr)))
        have hset : s.pixel_mode ≠ FT_Pixel_Mode.NONE := fun hn => hno (Or.inr (Or.inr hn))
        by_cases hgray : s.pixel_mode = FT_Pixel_Mode.GRAY
        · unfold bsdf_init_distance_map at h
          simp only at h
          rw [if_neg hfit, if_neg hset] at h
          simp only [hgray] at h
          cases hr : gray_rows s w ((w.width - s.width).tdiv 2) ((w.rows - s.rows).tdiv 2)
              w.distance_map with
          | none => simp [hr] at h
          | some t => simp [hr] at h
        · rw [unimplemented_of_size_test s w hfit hset hgray] at h
          simp at h
      · intro h
        rcases h with h | h | ⟨s', w', hs, hw, h⟩
        · exact absurd h (by simp)
        · exact absurd h (by simp)
        · cases Option.some.inj hs
          cases Option.some.inj hw
          rw [invalid_of_small_or_unset s w h]
          rfl

/-- C2: the sample 255 is not stored as 1.0 (65536): the shift result 65536
does not fit the `FT_Short` it is stored back into, and `dist` receives 0. -/
theorem full_sample_stored_as_zero :
    gray_pixel_value 255 = 0 ∧
    observed (bsdf_init_distance_map (some ex_full) (some (ex_row_worker 1))) =
      some (FT_Error.FT_Err_Ok, some [{ ex_record with dist := 0 }]) := by
  decide

/-- C5: the samples 255 and 0 are stored as the same value, 0. -/
theorem full_and_empty_samples_collide :
    gray_pixel_value 255 = gray_pixel_value 0 ∧
    observed (bsdf_init_distance_map (some ex_ends) (some (ex_row_worker 2))) =
      some (FT_Error.FT_Err_Ok,
        some [{ ex_record with dist := 0 }, { ex_record with dist := 0 }]) := by
  decide

/-- C6: the sample 128 is stored as -32768, outside `[0, 65536]`. -/
theorem half_sample_stored_negative :
    gray_pixel_value 128 = -32768 ∧
    observed (bsdf_init_distance_map (some ex_half) (some (ex_row_worker 1))) =
      some (FT_Error.FT_Err_Ok, some [{ ex_record with dist := -32768 }]) := by
  decide

/-- C10: with every check passed and the allocation successful,
`bsdf_raster_render` leaves at once with `FT_Err_Ok`; it does not call
`bsdf_init_distance_map`, so a MONO source is not reported as
`Unimplemented_Feature`. -/
theorem render_skips_decoding_after_allocation :
    bsdf_raster_render ex_constants (some { memory := some ex_memory })
        (some ex_render_params) =
      some { error := FT_Error.FT_Err_Ok,
             allocated := some (List.replicate 20 ex_record),
             worker := none, target := some ex_target } := by
  decide


/-! ## Properties of `bsdf_raster_render` -/

/-- The worker `bsdf_init_distance_map` leaves has the parameters, the width
and the rows it was given. -/
theorem init_keeps_worker_fields {source : FT_Bitmap} {worker worker' : BSDF_Worker}
    {error : FT_Error}
    (h : bsdf_init_distance_map (some source) (some worker) = some (error, some worker')) :
    worker'.params = worker.params ∧ worker'.width = worker.width ∧
      worker'.rows = worker.rows := by
  unfold bsdf_init_distance_map at h
  simp only at h
  split_ifs at h with h1 h2
  · cases h; exact ⟨rfl, rfl, rfl⟩
  · cases h; exact ⟨rfl, rfl, rfl⟩
  · split at h
    all_goals first
      | (cases h; exact ⟨rfl, rfl, rfl⟩)
      | (split at h
         · exact absurd h (by simp)
         · cases h; exact ⟨rfl, rfl, rfl⟩)

/-- C11: with a non-null raster that has a memory handle, non-null params with
the SDF flag, a non-null source and target: a spread below `MIN_SPREAD` or above
`MAX_SPREAD` makes `bsdf_raster_render` return `Invalid_Argument` without a
request to the allocator; a spread within `[MIN_SPREAD, MAX_SPREAD]` is not
rejected, the request to the allocator is made; and a worker that reaches
`bsdf_init_distance_map` carries the spread as given (no clamping). -/
theorem spread_out_of_range_rejected (K : SDF_Constants) (raster : BSDF_TRaster)
    (memory : FT_Memory) (params : SDF_Raster_Params) (source target : FT_Bitmap)
    (hmemory : raster.memory = some memory)
    (hflags : params.root.flags = K.FT_RASTER_FLAG_SDF)
    (hsource : params.root.source = some source)
    (htarget : params.root.target = some target) :
    ((params.spread < K.MIN_SPREAD ∨ params.spread > K.MAX_SPREAD) →
      bsdf_raster_render K (some raster) (some params) =
        some (rejected FT_Error.Invalid_Argument (some target))) ∧
    ((K.MIN_SPREAD ≤ params.spread ∧ params.spread ≤ K.MAX_SPREAD) →
      ∀ e, bsdf_raster_render K (some raster) (some params) = some e →
        e.allocated = some (memory.qalloc target.rows target.width).2) ∧
    (∀ e w, bsdf_raster_render K (some raster) (some params) = some e →
      e.worker = some w → w.params.spread = params.spread) := by
  have hrender : bsdf_raster_render K (some raster) (some params) =
      if params.spread > K.MAX_SPREAD ∨ params.spread < K.MIN_SPREAD then
        some (rejected FT_Error.Invalid_Argument (some target))
      else
        if !(FT_QALLOC_MULT memory target.rows target.width).1 then
          some { error := (memory.qalloc target.rows target.width).1,
                 allocated := some (memory.qalloc target.rows target.width).2,
                 worker := none, target := some target }
        else
          match bsdf_init_distance_map (some source)
              (some { distance_map := (memory.qalloc target.rows target.width).2,
                      width := target.width, rows := target.rows, params := params }) with
          | none => none
          | some (error, worker) =>
            some { error := error,
                   allocated := some (memory.qalloc target.rows target.width).2,
                   worker := worker, target := some target } := by
    unfold bsdf_raster_render
    simp only [hflags, hsource, htarget, hmemory, ne_eq, not_true_eq_false, if_false,
      Option.bind_some, Option.some_bind]
    rfl
  refine ⟨fun hout => ?_, fun hin e he => ?_, fun e w he hw => ?_⟩
  · rw [hrender, if_pos (by omega)]
  · rw [hrender, if_neg (by omega)] at he
    split_ifs at he with hf
    · cases he; rfl
    · split at he
      · exact absurd he (by simp)
      · cases he; rfl
  · rw [hrender] at he
    split_ifs at he with hs hf
    · cases he; exact absurd hw (by simp [rejected])
    · cases he; exact absurd hw (by simp)
    · split at he
      · exact absurd he (by simp)
      · rename_i error worker hinit
        cases he
        simp only at hw
        subst hw
        rw [(init_keeps_worker_fields hinit).1]

theorem spread_out_of_range_rejected_witness :
    bsdf_raster_render ex_constants (some { memory := some ex_memory })
        (some { ex_render_params with spread := ex_constants.MIN_SPREAD - 1 }) =
      some (rejected FT_Error.Invalid_Argument (some ex_target)) :=
  (spread_out_of_range_rejected ex_constants { memory := some ex_memory } ex_memory
    { ex_render_params with spread := ex_constants.MIN_SPREAD - 1 }
    { ex_source with pixel_mode := FT_Pixel_Mode.MONO } ex_target rfl rfl rfl rfl).1
    (Or.inl (by decide))

/-- C12: `bsdf_raster_render` reports the first check that fails, each time
without a request to the allocator: a null raster or null params gives
`Invalid_Argument`; otherwise flags other than `FT_RASTER_FLAG_SDF` give
`Raster_Corrupted`; otherwise a null source or target gives
`Invalid_Argument`; otherwise a raster without memory handle gives
`Invalid_Handle`; otherwise a spread outside `[MIN_SPREAD, MAX_SPREAD]` gives
`Invalid_Argument`. -/
theorem first_failed_check_reported (K : SDF_Constants) (raster : Option BSDF_TRaster)
    (params : Option SDF_Raster_Params) :
    ((raster = none ∨ params = none) →
      bsdf_raster_render K raster params =
        some (rejected FT_Error.Invalid_Argument (params.bind (fun p => p.root.target)))) ∧
    (∀ r p, raster = some r → params = some p →
      (p.root.flags ≠ K.FT_RASTER_FLAG_SDF →
        bsdf_raster_render K raster params =
          some (rejected FT_Error.Raster_Corrupted p.root.target)) ∧
      (p.root.flags = K.FT_RASTER_FLAG_SDF →
        ((p.root.source = none ∨ p.root.target = none) →
          bsdf_raster_render K raster params =
            some (rejected FT_Error.Invalid_Argument p.root.target)) ∧
        (p.root.source ≠ none → p.root.target ≠ none →
          (r.memory = none →
            bsdf_raster_render K raster params =
              some (rejected FT_Error.Invalid_Handle p.root.target)) ∧
          (r.memory ≠ none → (p.spread > K.MAX_SPREAD ∨ p.spread < K.MIN_SPREAD) →
            bsdf_raster_render K raster params =
              some (rejected FT_Error.Invalid_Argument p.root.target))))) := by
  refine ⟨fun h => ?_, fun r p hr hp => ?_⟩
  · rcases h with h | h
    · subst h
      cases params <;> rfl
    · subst h
      cases raster <;> rfl
  · subst hr
    subst hp
    refine ⟨fun hflags => ?_, fun hflags => ⟨fun hnull => ?_, fun hs ht => ⟨fun hm => ?_,
      fun hm hspread => ?_⟩⟩⟩
    · simp [bsdf_raster_render, rejected, hflags]
    · rcases hnull with h | h
      · simp [bsdf_raster_render, rejected, hflags, h]
      · cases hsrc : p.root.source <;> simp [bsdf_raster_render, rejected, hflags, h, hsrc]
    · obtain ⟨source, hsource⟩ := Option.ne_none_iff_exists'.mp hs
      obtain ⟨target, htarget⟩ := Option.ne_none_iff_exists'.mp ht
      simp [bsdf_raster_render, rejected, hflags, hsource, htarget, hm]
    · obtain ⟨source, hsource⟩ := Option.ne_none_iff_exists'.mp hs
      obtain ⟨target, htarget⟩ := Option.ne_none_iff_exists'.mp ht
      obtain ⟨memory, hmemory⟩ := Option.ne_none_iff_exists'.mp hm
      simp [bsdf_raster_render, rejected, hflags, hsource, htarget, hmemory, hspread]

/-- C13: after a failed allocation `bsdf_raster_render` does not leave: it
sets up the worker around the null distance map and calls
`bsdf_init_distance_map`, whose result replaces the allocator's error.  With a
MONO source the call returns `Unimplemented_Feature`; with a GRAY source the
first store goes through the null pointer. -/
theorem render_decodes_after_failed_allocation :
    bsdf_raster_render ex_constants (some { memory := some ex_failing_memory })
        (some ex_render_params) =
      some { error := FT_Error.Unimplemented_Feature, allocated := some [],
             worker := some { distance_map := [], width := 5, rows := 4,
                              params := ex_render_params },
             target := some ex_target } ∧
    bsdf_raster_render ex_constants (some { memory := some ex_failing_memory })
        (some ex_render_params_gray) = none := by
  decide

/-! ## Two runs of `bsdf_init_distance_map` -/

/-- Two counted loops whose steps keep a relation between their states either
both stop on an undefined step or both complete in related states. -/
theorem foldlM_range_rel {σ : Type} (f g : σ → Nat → Option σ) (R : σ → σ → Prop) (n : Nat)
    (hstep : ∀ i, i < n → ∀ s1 s2, R s1 s2 →
      (f s1 i = none ∧ g s2 i = none) ∨
        ∃ s1' s2', f s1 i = some s1' ∧ g s2 i = some s2' ∧ R s1' s2') :
    ∀ s1 s2, R s1 s2 →
      ((List.range n).foldlM f s1 = none ∧ (List.range n).foldlM g s2 = none) ∨
        ∃ s1' s2', (List.range n).foldlM f s1 = some s1' ∧
          (List.range n).foldlM g s2 = some s2' ∧ R s1' s2' := by
  induction n with
  | zero =>
    intro s1 s2 h
    exact Or.inr ⟨s1, s2, rfl, rfl, h⟩
  | succ n ih =>
    intro s1 s2 h
    rw [List.range_succ, List.foldlM_append, List.foldlM_append]
    rcases ih (fun i hi => hstep i (Nat.lt_succ_of_lt hi)) s1 s2 h with
      ⟨h1, h2⟩ | ⟨m1, m2, h1, h2, hm⟩
    · rw [h1, h2]
      exact Or.inl ⟨rfl, rfl⟩
    · rw [h1, h2]
      rcases hstep n (Nat.lt_succ_self n) m1 m2 hm with ⟨e1, e2⟩ | ⟨l1, l2, e1, e2, hl⟩
      · exact Or.inl ⟨by simp [e1], by simp [e2]⟩
      · exact Or.inr ⟨l1, l2, by simp [e1], by simp [e2], hl⟩

theorem store_dist_same_length (t1 t2 : List ED) (t_index v : Int)
    (hlen : t1.length = t2.length) :
    (store_dist t1 t_index v = none ∧ store_dist t2 t_index v = none) ∨
      ∃ t1' t2', store_dist t1 t_index v = some t1' ∧ store_dist t2 t_index v = some t2' ∧
        t1'.length = t2'.length := by
  unfold store_dist
  by_cases hr : 0 ≤ t_index ∧ t_index ≤ FT_INT_MAX
  · rw [if_pos hr, if_pos hr]
    by_cases hk : t_index.toNat < t1.length
    · rw [List.getElem?_eq_getElem hk, List.getElem?_eq_getElem (hlen ▸ hk)]
      exact Or.inr ⟨_, _, rfl, rfl, by rw [List.length_set, List.length_set]; exact hlen⟩
    · rw [List.getElem?_eq_none (by omega), List.getElem?_eq_none (by omega)]
      exact Or.inl ⟨rfl, rfl⟩
  · rw [if_neg hr, if_neg hr]
    exact Or.inl ⟨rfl, rfl⟩

/-- Whether the loops complete depends on the length of the distance map
only, not on its contents. -/
theorem gray_rows_same_length (source : FT_Bitmap) (worker : BSDF_Worker)
    (x_diff y_diff : Int) (t1 t2 : List ED) (hlen : t1.length = t2.length) :
    (gray_rows source worker x_diff y_diff t1 = none ∧
        gray_rows source worker x_diff y_diff t2 = none) ∨
      ∃ t1' t2', gray_rows source worker x_diff y_diff t1 = some t1' ∧
        gray_rows source worker x_diff y_diff t2 = some t2' ∧ t1'.length = t2'.length := by
  unfold gray_rows
  refine foldlM_range_rel _ _ (fun s1 s2 => s1.length = s2.length) _ (fun j _ s1 s2 hs => ?_)
    t1 t2 hlen
  unfold gray_row
  refine foldlM_range_rel _ _ (fun s1 s2 => s1.length = s2.length) _ (fun i _ u1 u2 hu => ?_)
    s1 s2 hs
  rw [gray_cell_eq, gray_cell_eq]
  cases gray_cell_value source worker x_diff y_diff (j : Int) (i : Int) with
  | none => exact Or.inl ⟨rfl, rfl⟩
  | some v => exact store_dist_same_length u1 u2 _ v hu

/-- The error `bsdf_init_distance_map` returns depends on the length of the
distance map only, not on its contents. -/
theorem init_error_same_length (source : FT_Bitmap) (worker : BSDF_Worker) (t2 : List ED)
    (hlen : worker.distance_map.length = t2.length) :
    (bsdf_init_distance_map (some source) (some worker)).map Prod.fst =
      (bsdf_init_distance_map (some source)
        (some { worker with distance_map := t2 })).map Prod.fst := by
  unfold bsdf_init_distance_map
  simp only
  by_cases hfit : to_unsigned worker.width < source.width ∨
      to_unsigned worker.rows < source.rows
  · rw [if_pos hfit, if_pos hfit]
    rfl
  · rw [if_neg hfit, if_neg hfit]
    by_cases hnone : source.pixel_mode = FT_Pixel_Mode.NONE
    · rw [if_pos hnone, if_pos hnone]
      rfl
    · rw [if_neg hnone, if_neg hnone]
      cases hm : source.pixel_mode with
      | GRAY =>
        simp only
        have hw : ∀ t, gray_rows source { worker with distance_map := t2 }
            ((worker.width - source.width).tdiv 2) ((worker.rows - source.rows).tdiv 2) t =
            gray_rows source worker
            ((worker.width - source.width).tdiv 2) ((worker.rows - source.rows).tdiv 2) t :=
          fun _ => rfl
        rw [hw]
        rcases gray_rows_same_length source worker ((worker.width - source.width).tdiv 2)
          ((worker.rows - source.rows).tdiv 2) worker.distance_map t2 hlen with
          ⟨h1, h2⟩ | ⟨u1, u2, h1, h2, _⟩
        · rw [h1, h2]
        · rw [h1, h2]
          rfl
      | NONE => rfl
      | MONO => rfl
      | GRAY2 => rfl
      | GRAY4 => rfl
      | GRAY16 => rfl
      | LCD => rfl
      | LCD_V => rfl
      | OTHER c => rfl

/-- C14 does not hold for `near`: two runs on the same source and grid, over
distance maps with different prior contents, both return `FT_Err_Ok` and leave
different distance maps (the cell (0, 0) keeps the `near` each map had). -/
theorem prior_near_survives :
    (bsdf_init_distance_map (some ex_source) (some (ex_worker false))).map Prod.fst =
      some FT_Error.FT_Err_Ok ∧
    (bsdf_init_distance_map (some ex_source) (some ex_worker_other)).map Prod.fst =
      some FT_Error.FT_Err_Ok ∧
    observed (bsdf_init_distance_map (some ex_source) (some (ex_worker false))) ≠
      observed (bsdf_init_distance_map (some ex_source) (some ex_worker_other)) := by
  decide

/-- C14, amended: two runs of `bsdf_init_distance_map` on the same source, with
the same grid dimensions and parameters, over distance maps of the same length
return the same error code whatever the prior contents of the maps; when both
return `FT_Err_Ok`, every cell has the same `dist` in both maps, and its `near`
in each map is the one the map held before the run. -/
theorem decode_deterministic_in_dist (source : FT_Bitmap) (worker1 worker2 : BSDF_Worker)
    (hwidth : worker1.width = worker2.width) (hrows : worker1.rows = worker2.rows)
    (hparams : worker1.params = worker2.params)
    (hlen : worker1.distance_map.length = worker2.distance_map.length) :
    (bsdf_init_distance_map (some source) (some worker1)).map Prod.fst =
      (bsdf_init_distance_map (some source) (some worker2)).map Prod.fst ∧
    ∀ worker1' worker2',
      bsdf_init_distance_map (some source) (some worker1) =
        some (FT_Error.FT_Err_Ok, some worker1') →
      bsdf_init_distance_map (some source) (some worker2) =
        some (FT_Error.FT_Err_Ok, some worker2') →
      ∀ t_i t_j,
        (cell_at worker1' t_i t_j).map ED.dist = (cell_at worker2' t_i t_j).map ED.dist ∧
        (cell_at worker1' t_i t_j).map ED.near = (cell_at worker1 t_i t_j).map ED.near ∧
        (cell_at worker2' t_i t_j).map ED.near = (cell_at worker2 t_i t_j).map ED.near := by
  have hw2 : worker2 = { worker1 with distance_map := worker2.distance_map } := by
    cases worker1
    cases worker2
    simp only at hwidth hrows hparams
    subst hwidth hrows hparams
    rfl
  refine ⟨?_, fun worker1' worker2' h1 h2 t_i t_j => ?_⟩
  · rw [hw2]
    exact init_error_same_length source worker1 worker2.distance_map hlen
  · have hf1 := init_keeps_worker_fields h1
    have hf2 := init_keeps_worker_fields h2
    by_cases hgrid : 0 ≤ t_i ∧ t_i < worker1.width ∧ 0 ≤ t_j ∧ t_j < worker1.rows
    · obtain ⟨e1, v1, hc1, hv1, hc1'⟩ :=
        cell_after_init h1 t_i t_j ⟨hgrid.1, hgrid.2.1⟩ ⟨hgrid.2.2.1, hgrid.2.2.2⟩
      obtain ⟨e2, v2, hc2, hv2, hc2'⟩ :=
        cell_after_init h2 t_i t_j ⟨hgrid.1, hwidth ▸ hgrid.2.1⟩
          ⟨hgrid.2.2.1, hrows ▸ hgrid.2.2.2⟩
      have hv : gray_cell_value source worker2 ((worker2.width - source.width).tdiv 2)
          ((worker2.rows - source.rows).tdiv 2) t_j t_i =
          gray_cell_value source worker1 ((worker1.width - source.width).tdiv 2)
          ((worker1.rows - source.rows).tdiv 2) t_j t_i := by
        unfold gray_cell_value
        rw [hwidth, hrows, hparams]
      rw [hv, hv1] at hv2
      cases Option.some.inj hv2
      rw [hc1', hc2', hc1, hc2]
      exact ⟨rfl, rfl, rfl⟩
    · have hgrid1' : ¬ (0 ≤ t_i ∧ t_i < worker1'.width ∧ 0 ≤ t_j ∧ t_j < worker1'.rows) := by
        rw [hf1.2.1, hf1.2.2]; exact hgrid
      have hgrid2 : ¬ (0 ≤ t_i ∧ t_i < worker2.width ∧ 0 ≤ t_j ∧ t_j < worker2.rows) := by
        rw [← hwidth, ← hrows]; exact hgrid
      have hgrid2' : ¬ (0 ≤ t_i ∧ t_i < worker2'.width ∧ 0 ≤ t_j ∧ t_j < worker2'.rows) := by
        rw [hf2.2.1, hf2.2.2]; exact hgrid2
      unfold cell_at
      rw [if_neg hgrid, if_neg hgrid1', if_neg hgrid2, if_neg hgrid2']
      exact ⟨rfl, rfl, rfl⟩

theorem decode_deterministic_in_dist_witness :
    (bsdf_init_distance_map (some ex_source) (some (ex_worker false))).map Prod.fst =
      (bsdf_init_distance_map (some ex_source) (some ex_worker_other)).map Prod.fst ∧
    ∀ worker1' worker2',
      bsdf_init_distance_map (some ex_source) (some (ex_worker false)) =
        some (FT_Error.FT_Err_Ok, some worker1') →
      bsdf_init_distance_map (some ex_source) (some ex_worker_other) =
        some (FT_Error.FT_Err_Ok, some worker2') →
      ∀ t_i t_j,
        (cell_at worker1' t_i t_j).map ED.dist = (cell_at worker2' t_i t_j).map ED.dist ∧
        (cell_at worker1' t_i t_j).map ED.near =
          (cell_at (ex_worker false) t_i t_j).map ED.near ∧
        (cell_at worker2' t_i t_j).map ED.near =
          (cell_at ex_worker_other t_i t_j).map ED.near :=
  decode_deterministic_in_dist ex_source (ex_worker false) ex_worker_other
    (by decide) (by decide) (by decide) (by decide)

/-! ## Counting cells -/

/-- The number of indices below `n` that lie in `[a, b)`. -/
theorem countP_range_interval (a b : Nat) (n : Nat) :
    (List.range n).countP (fun i => decide (a ≤ i ∧ i < b)) = min n b - min n a := by
  induction n with
  | zero => simp
  | succ n ih =>
    rw [List.range_succ, List.countP_append, ih]
    by_cases h : a ≤ n ∧ n < b
    · simp only [List.countP_cons, List.countP_nil, h, and_self, decide_True, if_true]
      omega
    · simp only [List.countP_cons, List.countP_nil, h, decide_False, Bool.false_eq_true,
        if_false]
      omega

theorem padding_before_eq (t_dim s_dim : Int) (hs : 0 ≤ s_dim) (hfit : s_dim ≤ t_dim) :
    (padding_before t_dim s_dim : Int) = (t_dim - s_dim) / 2 := by
  have hd : (t_dim - s_dim).tdiv 2 = (t_dim - s_dim) / 2 :=
    Int.tdiv_eq_ediv (by omega) (by omega)
  unfold padding_before
  rw [hd]
  have hc : (List.range t_dim.toNat).countP
      (fun (t : Nat) => decide ((t : Int) - (t_dim - s_dim) / 2 < 0)) =
      (List.range t_dim.toNat).countP
        (fun i => decide (0 ≤ i ∧ i < ((t_dim - s_dim) / 2).toNat)) := by
    apply List.countP_congr
    intro i _
    simp only [decide_eq_true_eq]
    omega
  rw [hc, countP_range_interval]
  omega

theorem padding_after_eq (t_dim s_dim : Int) (hs : 0 ≤ s_dim) (hfit : s_dim ≤ t_dim) :
    (padding_after t_dim s_dim : Int) = (t_dim - s_dim) - (t_dim - s_dim) / 2 := by
  have hd : (t_dim - s_dim).tdiv 2 = (t_dim - s_dim) / 2 :=
    Int.tdiv_eq_ediv (by omega) (by omega)
  unfold padding_after
  rw [hd]
  have hc : (List.range t_dim.toNat).countP
      (fun (t : Nat) => decide ((t : Int) - (t_dim - s_dim) / 2 ≥ s_dim)) =
      (List.range t_dim.toNat).countP
        (fun i => decide (((t_dim - s_dim) / 2 + s_dim).toNat ≤ i ∧ i < t_dim.toNat)) := by
    apply List.countP_congr
    intro i hi
    have := List.mem_range.mp hi
    simp only [decide_eq_true_eq]
    omega
  rw [hc, countP_range_interval]
  omega

/-- The sample a cell receives is the one `source_of_cell` names. -/
theorem gray_cell_value_eq_source_of_cell (source : FT_Bitmap) (worker : BSDF_Worker)
    (t_i t_j : Int) :
    gray_cell_value source worker ((worker.width - source.width).tdiv 2)
        ((worker.rows - source.rows).tdiv 2) t_j t_i =
      match source_of_cell source worker t_i t_j with
      | none => some FT_INT_MAX
      | some (col, row) =>
        (load_byte source.buffer (row * source.width + col)).map gray_pixel_value := by
  unfold gray_cell_value source_of_cell
  simp only
  split_ifs <;> rfl

/-- The loops visit the indices `0, 1, ..., t_rows * t_width - 1` in this
order, each one once. -/
theorem visited_indices_eq (worker : BSDF_Worker) :
    visited_indices worker =
      (List.range (worker.rows.toNat * worker.width.toNat)).map (fun (k : Nat) => (k : Int)) := by
  unfold visited_indices
  generalize worker.rows.toNat = th
  induction th with
  | zero => simp
  | succ n ih =>
    rw [List.range_succ, List.flatMap_append, ih, Nat.succ_mul, List.range_add,
      List.map_append, List.map_map]
    congr 1
    simp only [List.flatMap_cons, List.flatMap_nil, List.append_nil]
    apply List.map_congr_left
    intro i hi
    have hlt := List.mem_range.mp hi
    have hW : ((worker.width.toNat : Nat) : Int) = worker.width :=
      Int.toNat_of_nonneg (by omega)
    simp only [Function.comp_apply]
    push_cast
    rw [hW]

/-- Counting the cells of a grid of `th` rows of `tw` cells that lie in given
columns and rows: the product of the two counts. -/
theorem countP_grid (A B : Nat → Bool) (tw th : Nat) :
    (List.range (th * tw)).countP (fun k => A (k % tw) && B (k / tw)) =
      (List.range tw).countP A * (List.range th).countP B := by
  induction th with
  | zero => simp
  | succ n ih =>
    rw [Nat.succ_mul, List.range_add, List.countP_append, ih, List.countP_map,
      List.range_succ, List.countP_append]
    have hrow : (List.range tw).countP
        ((fun k => A (k % tw) && B (k / tw)) ∘ fun x => n * tw + x) =
        (List.range tw).countP (fun i => A i && B n) := by
      apply List.countP_congr
      intro i hi
      have hlt := List.mem_range.mp hi
      simp only [Function.comp_apply]
      rw [cell_index_mod n i tw hlt, cell_index_div n i tw hlt]
    rw [hrow]
    cases hB : B n with
    | true =>
      simp only [Bool.and_true, List.countP_cons, List.countP_nil, hB, if_true]
      rw [Nat.mul_add, Nat.mul_one]
    | false =>
      simp only [Bool.and_false, List.countP_cons, List.countP_nil, hB,
        Bool.false_eq_true, if_false]
      simp

/-- After a run that returns `FT_Err_Ok`, the record at each index of the grid
holds the sentinel exactly when the padding test holds for its cell. -/
theorem index_after_init {source : FT_Bitmap} {worker worker' : BSDF_Worker}
    (h : bsdf_init_distance_map (some source) (some worker) =
      some (FT_Error.FT_Err_Ok, some worker'))
    (k : Nat) (hk : k < worker.rows.toNat * worker.width.toNat) :
    ∃ e, worker'.distance_map[k]? = some e ∧
      (e.dist = FT_INT_MAX ↔
        (((k % worker.width.toNat : Nat) : Int) - (worker.width - source.width).tdiv 2 < 0 ∨
          ((k % worker.width.toNat : Nat) : Int) - (worker.width - source.width).tdiv 2 ≥
            source.width ∨
          ((k / worker.width.toNat : Nat) : Int) - (worker.rows - source.rows).tdiv 2 < 0 ∨
          ((k / worker.width.toNat : Nat) : Int) - (worker.rows - source.rows).tdiv 2 ≥
            source.rows)) := by
  obtain ⟨_, _, _, t, hrows, hw'⟩ := init_ok_inv h
  have hw'' : worker' = { worker with distance_map := t } := (Option.some.inj hw').symm ▸ rfl
  obtain ⟨_, _, hdone⟩ := seeded_rows source worker _ _ worker.distance_map t hrows
  obtain ⟨e0, v, _, hv, ht⟩ := hdone k hk
  subst hw''
  refine ⟨_, ht, ?_⟩
  unfold gray_cell_value at hv
  by_cases hpad :
      ((k % worker.width.toNat : Nat) : Int) - (worker.width - source.width).tdiv 2 < 0 ∨
      ((k % worker.width.toNat : Nat) : Int) - (worker.width - source.width).tdiv 2 ≥
        source.width ∨
      ((k / worker.width.toNat : Nat) : Int) - (worker.rows - source.rows).tdiv 2 < 0 ∨
      ((k / worker.width.toNat : Nat) : Int) - (worker.rows - source.rows).tdiv 2 ≥
        source.rows
  · rw [if_pos hpad] at hv
    exact ⟨fun _ => hpad, fun _ => (Option.some.inj hv).symm⟩
  · rw [if_neg hpad] at hv
    rcases Option.map_eq_some'.mp hv with ⟨b, _, hbv⟩
    exact ⟨fun hd => absurd (hbv.trans hd) (gray_pixel_value_ne_sentinel b),
      fun hp => absurd hp hpad⟩

theorem seeded_cells_after_init {source : FT_Bitmap} {worker worker' : BSDF_Worker}
    (hw : 0 ≤ source.width) (hh : 0 ≤ source.rows)
    (hfw : source.width ≤ worker.width) (hfh : source.rows ≤ worker.rows)
    (h : bsdf_init_distance_map (some source) (some worker) =
      some (FT_Error.FT_Err_Ok, some worker')) :
    seeded_cells worker' = source.width.toNat * source.rows.toNat := by
  have hf := init_keeps_worker_fields h
  have hx : (worker.width - source.width).tdiv 2 = (worker.width - source.width) / 2 :=
    Int.tdiv_eq_ediv (by omega) (by omega)
  have hy : (worker.rows - source.rows).tdiv 2 = (worker.rows - source.rows) / 2 :=
    Int.tdiv_eq_ediv (by omega) (by omega)
  unfold seeded_cells
  rw [hf.2.1, hf.2.2]
  have hc : (List.range (worker.rows.toNat * worker.width.toNat)).countP
      (fun (k : Nat) =>
        match worker'.distance_map[k]? with
        | some e => decide (e.dist ≠ FT_INT_MAX)
        | none => false) =
      (List.range (worker.rows.toNat * worker.width.toNat)).countP
        (fun k =>
          decide (((worker.width - source.width) / 2).toNat ≤ k % worker.width.toNat ∧
            k % worker.width.toNat <
              ((worker.width - source.width) / 2).toNat + source.width.toNat) &&
          decide (((worker.rows - source.rows) / 2).toNat ≤ k / worker.width.toNat ∧
            k / worker.width.toNat <
              ((worker.rows - source.rows) / 2).toNat + source.rows.toNat)) := by
    apply List.countP_congr
    intro k hk
    obtain ⟨e, he, hiff⟩ := index_after_init h k (List.mem_range.mp hk)
    rw [hx, hy] at hiff
    rw [he]
    simp only [ne_eq, decide_eq_true_eq, Bool.and_eq_true, hiff]
    omega
  have hg := countP_grid
    (fun i => decide (((worker.width - source.width) / 2).toNat ≤ i ∧
      i < ((worker.width - source.width) / 2).toNat + source.width.toNat))
    (fun j => decide (((worker.rows - source.rows) / 2).toNat ≤ j ∧
      j < ((worker.rows - source.rows) / 2).toNat + source.rows.toNat))
    worker.width.toNat worker.rows.toNat
  rw [countP_range_interval, countP_range_interval] at hg
  have e1 : min worker.width.toNat
      (((worker.width - source.width) / 2).toNat + source.width.toNat) -
      min worker.width.toNat ((worker.width - source.width) / 2).toNat =
      source.width.toNat := by omega
  have e2 : min worker.rows.toNat
      (((worker.rows - source.rows) / 2).toNat + source.rows.toNat) -
      min worker.rows.toNat ((worker.rows - source.rows) / 2).toNat =
      source.rows.toNat := by omega
  rw [e1, e2] at hg
  exact hc.trans hg

theorem sentinel_cells_after_init {source : FT_Bitmap} {worker worker' : BSDF_Worker}
    (h : bsdf_init_distance_map (some source) (some worker) =
      some (FT_Error.FT_Err_Ok, some worker')) :
    sentinel_cells worker' + seeded_cells worker' =
      worker.rows.toNat * worker.width.toNat := by
  have hf := init_keeps_worker_fields h
  unfold sentinel_cells seeded_cells
  rw [hf.2.1, hf.2.2]
  have hlen := List.length_eq_countP_add_countP
    (fun (k : Nat) =>
      match worker'.distance_map[k]? with
      | some e => decide (e.dist ≠ FT_INT_MAX)
      | none => false)
    (List.range (worker.rows.toNat * worker.width.toNat))
  rw [List.length_range] at hlen
  have hc : (List.range (worker.rows.toNat * worker.width.toNat)).countP
      (fun (k : Nat) =>
        match worker'.distance_map[k]? with
        | some e => decide (e.dist = FT_INT_MAX)
        | none => false) =
      (List.range (worker.rows.toNat * worker.width.toNat)).countP
        (fun a => decide ¬ (fun (k : Nat) =>
          match worker'.distance_map[k]? with
          | some e => decide (e.dist ≠ FT_INT_MAX)
          | none => false) a = true) := by
    apply List.countP_congr
    intro k hk
    obtain ⟨e, he, _⟩ := index_after_init h k (List.mem_range.mp hk)
    simp only [he, ne_eq, decide_not, Bool.not_eq_true', decide_eq_false_iff_not,
      decide_eq_true_eq, Bool.not_eq_true, Decidable.not_not]
  rw [hc, Nat.add_comm]
  exact hlen.symm

/-- Every source pixel is the one read for exactly one cell of the grid. -/
theorem source_of_cell_unique (source : FT_Bitmap) (worker : BSDF_Worker)
    (hfw : source.width ≤ worker.width) (hfh : source.rows ≤ worker.rows)
    (i j : Int) (hi : 0 ≤ i ∧ i < source.width) (hj : 0 ≤ j ∧ j < source.rows) :
    ∃! p : Int × Int,
      (0 ≤ p.1 ∧ p.1 < worker.width ∧ 0 ≤ p.2 ∧ p.2 < worker.rows) ∧
      source_of_cell source worker p.1 p.2 = some (i, j) := by
  have hx : (worker.width - source.width).tdiv 2 = (worker.width - source.width) / 2 :=
    Int.tdiv_eq_ediv (by omega) (by omega)
  have hy : (worker.rows - source.rows).tdiv 2 = (worker.rows - source.rows) / 2 :=
    Int.tdiv_eq_ediv (by omega) (by omega)
  unfold source_of_cell
  simp only [hx, hy]
  cases hf : worker.params.flip_y with
  | false =>
    refine ⟨(i + (worker.width - source.width) / 2, j + (worker.rows - source.rows) / 2),
      ⟨by simp only; omega, ?_⟩, ?_⟩
    · simp only [Bool.false_eq_true, if_false]
      rw [if_neg (by omega)]
      simp
    · rintro ⟨p1, p2⟩ ⟨_, hp⟩
      simp only [Bool.false_eq_true, if_false] at hp
      split_ifs at hp with hpad
      simp only [Option.some.injEq, Prod.mk.injEq] at hp
      simp only [Prod.mk.injEq]
      omega
  | true =>
    refine ⟨(i + (worker.width - source.width) / 2,
      source.rows - j - 1 + (worker.rows - source.rows) / 2),
      ⟨by simp only; omega, ?_⟩, ?_⟩
    · simp only [if_true]
      rw [if_neg (by omega)]
      simp only [Option.some.injEq, Prod.mk.injEq]
      omega
    · rintro ⟨p1, p2⟩ ⟨_, hp⟩
      simp only [if_true] at hp
      split_ifs at hp with hpad
      simp only [Option.some.injEq, Prod.mk.injEq] at hp
      simp only [Prod.mk.injEq]
      omega

/-- C16: in a run of `bsdf_init_distance_map` that returns `FT_Err_Ok` (a GRAY
source) with `t_width ≥ s_width ≥ 0` and `t_rows ≥ s_rows ≥ 0`, for
either value of `flip_y`: every source pixel `(i, j)` is the pixel read for
exactly one cell of the grid; the loops write the indices
`0, ..., t_rows * t_width - 1`, each once; the number of cells not holding the
sentinel is `s_width * s_rows` and the number holding it is
`t_rows * t_width - s_width * s_rows`. -/
theorem seeding_is_bijective (source : FT_Bitmap) (worker worker' : BSDF_Worker)
    (hw : 0 ≤ source.width) (hh : 0 ≤ source.rows)
    (hfw : source.width ≤ worker.width) (hfh : source.rows ≤ worker.rows)
    (hrun : bsdf_init_distance_map (some source) (some worker) =
      some (FT_Error.FT_Err_Ok, some worker')) :
    (∀ i j : Int, 0 ≤ i ∧ i < source.width → 0 ≤ j ∧ j < source.rows →
      ∃! p : Int × Int,
        (0 ≤ p.1 ∧ p.1 < worker.width ∧ 0 ≤ p.2 ∧ p.2 < worker.rows) ∧
        source_of_cell source worker p.1 p.2 = some (i, j)) ∧
    visited_indices worker =
      (List.range (worker.rows.toNat * worker.width.toNat)).map (fun (k : Nat) => (k : Int)) ∧
    seeded_cells worker' = source.width.toNat * source.rows.toNat ∧
    sentinel_cells worker' =
      worker.rows.toNat * worker.width.toNat - source.width.toNat * source.rows.toNat := by
  have hseeded := seeded_cells_after_init hw hh hfw hfh hrun
  have hsum := sentinel_cells_after_init hrun
  refine ⟨fun i j hi hj => source_of_cell_unique source worker hfw hfh i j hi hj,
    visited_indices_eq worker, hseeded, ?_⟩
  omega

theorem seeding_is_bijective_witness :
    visited_indices (ex_worker true) =
      (List.range 20).map (fun (k : Nat) => (k : Int)) ∧
    seeded_cells { ex_worker true with distance_map := ex_seeded_flip } = 4 ∧
    sentinel_cells { ex_worker true with distance_map := ex_seeded_flip } = 16 :=
  (seeding_is_bijective ex_source (ex_worker true)
    { ex_worker true with distance_map := ex_seeded_flip }
    (by decide) (by decide) (by decide) (by decide) (by decide)).2

/-! ## Index safety and the row stride -/

theorem row_major_index_bounds (r c H W : Int) (hr : 0 ≤ r ∧ r < H) (hc : 0 ≤ c ∧ c < W) :
    0 ≤ r * W + c ∧ r * W + c < H * W := by
  have h1 : 0 ≤ r * W := Int.mul_nonneg hr.1 (by omega)
  have h2 : (r + 1) * W ≤ H * W := Int.mul_le_mul_of_nonneg_right (by omega) (by omega)
  have h3 : (r + 1) * W = r * W + W := by ring
  omega

theorem source_of_cell_bounds {source : FT_Bitmap} {worker : BSDF_Worker} {t_i t_j col row : Int}
    (h : source_of_cell source worker t_i t_j = some (col, row)) :
    (0 ≤ col ∧ col < source.width) ∧ (0 ≤ row ∧ row < source.rows) := by
  unfold source_of_cell at h
  simp only at h
  by_cases hpad : t_i - (worker.width - source.width).tdiv 2 < 0 ∨
      t_i - (worker.width - source.width).tdiv 2 ≥ source.width ∨
      t_j - (worker.rows - source.rows).tdiv 2 < 0 ∨
      t_j - (worker.rows - source.rows).tdiv 2 ≥ source.rows
  · rw [if_pos hpad] at h
    exact absurd h (by simp)
  · rw [if_neg hpad] at h
    simp only [Option.some.injEq, Prod.mk.injEq] at h
    obtain ⟨h1, h2⟩ := h
    split_ifs at h2 <;> omega

/-- C17: with `0 ≤ s_width ≤ t_width`, `0 ≤ s_rows ≤ t_rows`, a source buffer
of at least `s_width * s_rows` samples, a distance map of `t_rows * t_width`
records and `t_rows * t_width` an `FT_Int`, no access of
`bsdf_init_distance_map` is undefined: the function returns (with `FT_Err_Ok`
on a GRAY source), and for every cell of the grid `0 ≤ t_index <
t_rows * t_width`, and for every cell that is not padding
`0 ≤ s_index < s_rows * s_width`, whether `flip_y` is on or off. -/
theorem indices_in_bounds (source : FT_Bitmap) (worker : BSDF_Worker)
    (hw : 0 ≤ source.width ∧ source.width ≤ worker.width)
    (hh : 0 ≤ source.rows ∧ source.rows ≤ worker.rows)
    (hbuf : source.width.toNat * source.rows.toNat ≤ source.buffer.length)
    (hmap : worker.distance_map.length = worker.rows.toNat * worker.width.toNat)
    (hmax : worker.rows * worker.width ≤ FT_INT_MAX) :
    bsdf_init_distance_map (some source) (some worker) ≠ none ∧
    (source.pixel_mode = FT_Pixel_Mode.GRAY →
      ∃ worker', bsdf_init_distance_map (some source) (some worker) =
        some (FT_Error.FT_Err_Ok, some worker')) ∧
    (∀ t_i t_j : Int, 0 ≤ t_i ∧ t_i < worker.width → 0 ≤ t_j ∧ t_j < worker.rows →
      (0 ≤ t_j * worker.width + t_i ∧ t_j * worker.width + t_i < worker.rows * worker.width) ∧
      ∀ col row, source_of_cell source worker t_i t_j = some (col, row) →
        0 ≤ row * source.width + col ∧ row * source.width + col < source.rows * source.width) := by
  have hsmax : source.rows * source.width ≤ FT_INT_MAX :=
    le_trans (Int.mul_le_mul hh.2 hw.2 hw.1 (by omega)) hmax
  have hgray : source.pixel_mode = FT_Pixel_Mode.GRAY →
      ∃ worker', bsdf_init_distance_map (some source) (some worker) =
        some (FT_Error.FT_Err_Ok, some worker') := fun hmode =>
    init_gray_ok source worker hmode hw.2 hh.2 (by rw [Nat.mul_comm]; exact hbuf) hsmax
      (by omega) hmax
  refine ⟨?_, hgray, fun t_i t_j hi hj => ⟨row_major_index_bounds t_j t_i _ _ hj hi,
    fun col row hs => ?_⟩⟩
  · by_cases hmode : source.pixel_mode = FT_Pixel_Mode.GRAY
    · obtain ⟨worker', hrun⟩ := hgray hmode
      rw [hrun]
      simp
    · by_cases hnone : source.pixel_mode = FT_Pixel_Mode.NONE
      · rw [invalid_of_small_or_unset source worker (Or.inr (Or.inr hnone))]
        simp
      · rw [unimplemented_of_not_gray source worker hw.2 hh.2 hnone hmode]
        simp
  · obtain ⟨hc, hr⟩ := source_of_cell_bounds hs
    exact row_major_index_bounds row col _ _ hr hc

theorem indices_in_bounds_witness :
    bsdf_init_distance_map (some ex_source) (some (ex_worker true)) ≠ none ∧
    (ex_source.pixel_mode = FT_Pixel_Mode.GRAY →
      ∃ worker', bsdf_init_distance_map (some ex_source) (some (ex_worker true)) =
        some (FT_Error.FT_Err_Ok, some worker')) ∧
    (∀ t_i t_j : Int, 0 ≤ t_i ∧ t_i < (ex_worker true).width →
      0 ≤ t_j ∧ t_j < (ex_worker true).rows →
      (0 ≤ t_j * (ex_worker true).width + t_i ∧
        t_j * (ex_worker true).width + t_i < (ex_worker true).rows * (ex_worker true).width) ∧
      ∀ col row, source_of_cell ex_source (ex_worker true) t_i t_j = some (col, row) →
        0 ≤ row * ex_source.width + col ∧
        row * ex_source.width + col < ex_source.rows * ex_source.width) :=
  indices_in_bounds ex_source (ex_worker true) (by decide) (by decide) (by decide)
    (by decide) (by decide)

/-- C18: `bsdf_init_distance_map` does not read `pitch`: two sources with the
same width, rows, pixel mode and buffer give the same result (error code and
worker, hence distance map) on every worker, whatever their `pitch`. -/
theorem pitch_ignored (source1 source2 : FT_Bitmap) (worker : Option BSDF_Worker)
    (hwidth : source1.width = source2.width) (hrows : source1.rows = source2.rows)
    (hmode : source1.pixel_mode = source2.pixel_mode)
    (hbuffer : source1.buffer = source2.buffer) :
    bsdf_init_distance_map (some source1) worker =
      bsdf_init_distance_map (some source2) worker := by
  cases source1
  cases source2
  simp only at hwidth hrows hmode hbuffer
  subst hwidth hrows hmode hbuffer
  cases worker <;> rfl

theorem pitch_ignored_witness :
    bsdf_init_distance_map (some ex_source) (some (ex_worker false)) =
      bsdf_init_distance_map (some { ex_source with pitch := 7 }) (some (ex_worker false)) :=
  pitch_ignored ex_source { ex_source with pitch := 7 } (some (ex_worker false))
    rfl rfl rfl rfl
/-! ## The padding around the mapped region -/

/-- A worker dimension that is negative as an `FT_Int` passes the size test:
with `width = -1` a MONO source is reported as `Unimplemented_Feature`, with
`rows = -4` a GRAY source gives `FT_Err_Ok` (the loops visit no cell). -/
theorem negative_worker_dimension_passes_size_test :
    bsdf_init_distance_map (some { ex_source with pixel_mode := FT_Pixel_Mode.MONO })
        (some ex_negative_width_worker) =
      some (FT_Error.Unimplemented_Feature, some ex_negative_width_worker) ∧
    bsdf_init_distance_map (some ex_source) (some ex_negative_rows_worker) =
      some (FT_Error.FT_Err_Ok, some ex_negative_rows_worker) := by
  decide

/-- After a run that returns `FT_Err_Ok`, a cell of the grid holds the
sentinel exactly when the padding test of the loop body holds for it. -/
theorem cell_sentinel_iff {source : FT_Bitmap} {worker worker' : BSDF_Worker}
    (h : bsdf_init_distance_map (some source) (some worker) =
      some (FT_Error.FT_Err_Ok, some worker'))
    (t_i t_j : Nat) (hi : t_i < worker.width.toNat) (hj : t_j < worker.rows.toNat) :
    (cell_at worker' (t_i : Int) (t_j : Int)).map ED.dist = some FT_INT_MAX ↔
      ((t_i : Int) - (worker.width - source.width).tdiv 2 < 0 ∨
        (t_i : Int) - (worker.width - source.width).tdiv 2 ≥ source.width ∨
        (t_j : Int) - (worker.rows - source.rows).tdiv 2 < 0 ∨
        (t_j : Int) - (worker.rows - source.rows).tdiv 2 ≥ source.rows) := by
  obtain ⟨e0, v, _, hv, hc⟩ := cell_after_init h (t_i : Int) (t_j : Int) (by omega) (by omega)
  rw [hc]
  simp only [Option.map_some', Option.some.injEq]
  unfold gray_cell_value at hv
  by_cases hpad : (t_i : Int) - (worker.width - source.width).tdiv 2 < 0 ∨
      (t_i : Int) - (worker.width - source.width).tdiv 2 ≥ source.width ∨
      (t_j : Int) - (worker.rows - source.rows).tdiv 2 < 0 ∨
      (t_j : Int) - (worker.rows - source.rows).tdiv 2 ≥ source.rows
  · rw [if_pos hpad] at hv
    exact ⟨fun _ => hpad, fun _ => (Option.some.inj hv).symm⟩
  · rw [if_neg hpad] at hv
    rcases Option.map_eq_some'.mp hv with ⟨b, _, hbv⟩
    exact ⟨fun hd => absurd (hbv.trans hd) (gray_pixel_value_ne_sentinel b),
      fun hp => absurd hp hpad⟩

/-- After a run that returns `FT_Err_Ok`, a column of the grid holds the
sentinel in every cell exactly when it lies outside the mapped region, or the
region has no row. -/
theorem column_is_sentinel_iff {source : FT_Bitmap} {worker worker' : BSDF_Worker}
    (hh : 0 ≤ source.rows ∧ source.rows ≤ worker.rows)
    (h : bsdf_init_distance_map (some source) (some worker) =
      some (FT_Error.FT_Err_Ok, some worker'))
    (t_i : Nat) (hi : t_i < worker.width.toNat) :
    column_is_sentinel worker' t_i = true ↔
      ((t_i : Int) - (worker.width - source.width).tdiv 2 < 0 ∨
        (t_i : Int) - (worker.width - source.width).tdiv 2 ≥ source.width ∨
        source.rows = 0) := by
  have hf := init_keeps_worker_fields h
  have hy : (worker.rows - source.rows).tdiv 2 = (worker.rows - source.rows) / 2 :=
    Int.tdiv_eq_ediv (by omega) (by omega)
  unfold column_is_sentinel
  rw [hf.2.2, List.all_eq_true]
  constructor
  · intro hall
    by_contra hno
    have hrow : ((worker.rows - source.rows) / 2).toNat < worker.rows.toNat := by omega
    have hcell := hall _ (List.mem_range.mpr hrow)
    rw [decide_eq_true_eq, cell_sentinel_iff h t_i _ hi hrow, hy] at hcell
    omega
  · intro hpad t_j hj
    have hj' := List.mem_range.mp hj
    rw [decide_eq_true_eq, cell_sentinel_iff h t_i t_j hi hj', hy]
    omega

/-- After a run that returns `FT_Err_Ok`, a row of the grid holds the sentinel
in every cell exactly when it lies outside the mapped region, or the region
has no column. -/
theorem row_is_sentinel_iff {source : FT_Bitmap} {worker worker' : BSDF_Worker}
    (hw : 0 ≤ source.width ∧ source.width ≤ worker.width)
    (h : bsdf_init_distance_map (some source) (some worker) =
      some (FT_Error.FT_Err_Ok, some worker'))
    (t_j : Nat) (hj : t_j < worker.rows.toNat) :
    row_is_sentinel worker' t_j = true ↔
      ((t_j : Int) - (worker.rows - source.rows).tdiv 2 < 0 ∨
        (t_j : Int) - (worker.rows - source.rows).tdiv 2 ≥ source.rows ∨
        source.width = 0) := by
  have hf := init_keeps_worker_fields h
  have hx : (worker.width - source.width).tdiv 2 = (worker.width - source.width) / 2 :=
    Int.tdiv_eq_ediv (by omega) (by omega)
  unfold row_is_sentinel
  rw [hf.2.1, List.all_eq_true]
  constructor
  · intro hall
    by_contra hno
    have hcol : ((worker.width - source.width) / 2).toNat < worker.width.toNat := by omega
    have hcell := hall _ (List.mem_range.mpr hcol)
    rw [decide_eq_true_eq, cell_sentinel_iff h _ t_j hcol hj, hx] at hcell
    omega
  · intro hpad t_i hi
    have hi' := List.mem_range.mp hi
    rw [decide_eq_true_eq, cell_sentinel_iff h t_i t_j hi' hj, hx]
    omega

theorem sentinel_columns_left_eq {source : FT_Bitmap} {worker worker' : BSDF_Worker}
    (hh : 0 ≤ source.rows ∧ source.rows ≤ worker.rows)
    (h : bsdf_init_distance_map (some source) (some worker) =
      some (FT_Error.FT_Err_Ok, some worker')) :
    sentinel_columns_left source worker' = padding_before worker.width source.width := by
  have hf := init_keeps_worker_fields h
  unfold sentinel_columns_left padding_before
  rw [hf.2.1]
  apply List.countP_congr
  intro t_i hi
  have hcol := column_is_sentinel_iff hh h t_i (List.mem_range.mp hi)
  rw [Bool.and_eq_true, decide_eq_true_eq, hcol]
  exact ⟨fun hp => hp.1, fun hp => ⟨hp, Or.inl hp⟩⟩

theorem sentinel_columns_right_eq {source : FT_Bitmap} {worker worker' : BSDF_Worker}
    (hh : 0 ≤ source.rows ∧ source.rows ≤ worker.rows)
    (h : bsdf_init_distance_map (some source) (some worker) =
      some (FT_Error.FT_Err_Ok, some worker')) :
    sentinel_columns_right source worker' = padding_after worker.width source.width := by
  have hf := init_keeps_worker_fields h
  unfold sentinel_columns_right padding_after
  rw [hf.2.1]
  apply List.countP_congr
  intro t_i hi
  have hcol := column_is_sentinel_iff hh h t_i (List.mem_range.mp hi)
  rw [Bool.and_eq_true, decide_eq_true_eq, hcol]
  exact ⟨fun hp => hp.1, fun hp => ⟨hp, Or.inr (Or.inl hp)⟩⟩

theorem sentinel_rows_top_eq {source : FT_Bitmap} {worker worker' : BSDF_Worker}
    (hw : 0 ≤ source.width ∧ source.width ≤ worker.width)
    (h : bsdf_init_distance_map (some source) (some worker) =
      some (FT_Error.FT_Err_Ok, some worker')) :
    sentinel_rows_top source worker' = padding_before worker.rows source.rows := by
  have hf := init_keeps_worker_fields h
  unfold sentinel_rows_top padding_before
  rw [hf.2.2]
  apply List.countP_congr
  intro t_j hj
  have hrow := row_is_sentinel_iff hw h t_j (List.mem_range.mp hj)
  rw [Bool.and_eq_true, decide_eq_true_eq, hrow]
  exact ⟨fun hp => hp.1, fun hp => ⟨hp, Or.inl hp⟩⟩

theorem sentinel_rows_bottom_eq {source : FT_Bitmap} {worker worker' : BSDF_Worker}
    (hw : 0 ≤ source.width ∧ source.width ≤ worker.width)
    (h : bsdf_init_distance_map (some source) (some worker) =
      some (FT_Error.FT_Err_Ok, some worker')) :
    sentinel_rows_bottom source worker' = padding_after worker.rows source.rows := by
  have hf := init_keeps_worker_fields h
  unfold sentinel_rows_bottom padding_after
  rw [hf.2.2]
  apply List.countP_congr
  intro t_j hj
  have hrow := row_is_sentinel_iff hw h t_j (List.mem_range.mp hj)
  rw [Bool.and_eq_true, decide_eq_true_eq, hrow]
  exact ⟨fun hp => hp.1, fun hp => ⟨hp, Or.inr (Or.inl hp)⟩⟩

/-- C15: after a run of `bsdf_init_distance_map` that returns `FT_Err_Ok`, with
`t_width ≥ s_width ≥ 0` and `t_rows ≥ s_rows ≥ 0`: the number `L` of columns of
the distance map that hold the sentinel in every cell and lie to the left of
the mapped source region, and the number `R` of those to its right, are
`L = (t_width - s_width) / 2` and `R = (t_width - s_width) - L`, with
`L ≤ R ≤ L + 1`; likewise for the rows above and below the region.  When the
source has a pixel, the columns (rows) that hold the sentinel in every cell
are exactly those to the left and right of (above and below) the region. -/
theorem padding_biased_top_left (source : FT_Bitmap) (worker worker' : BSDF_Worker)
    (hw : 0 ≤ source.width ∧ source.width ≤ worker.width)
    (hh : 0 ≤ source.rows ∧ source.rows ≤ worker.rows)
    (hrun : bsdf_init_distance_map (some source) (some worker) =
      some (FT_Error.FT_Err_Ok, some worker')) :
    ((sentinel_columns_left source worker' : Int) = (worker.width - source.width) / 2 ∧
      (sentinel_columns_right source worker' : Int) =
        (worker.width - source.width) - (worker.width - source.width) / 2 ∧
      sentinel_columns_left source worker' ≤ sentinel_columns_right source worker' ∧
      sentinel_columns_right source worker' ≤ sentinel_columns_left source worker' + 1) ∧
    ((sentinel_rows_top source worker' : Int) = (worker.rows - source.rows) / 2 ∧
      (sentinel_rows_bottom source worker' : Int) =
        (worker.rows - source.rows) - (worker.rows - source.rows) / 2 ∧
      sentinel_rows_top source worker' ≤ sentinel_rows_bottom source worker' ∧
      sentinel_rows_bottom source worker' ≤ sentinel_rows_top source worker' + 1) ∧
    (0 < source.width → 0 < source.rows →
      (∀ t_i : Nat, t_i < worker.width.toNat →
        (column_is_sentinel worker' t_i = true ↔
          ((t_i : Int) - (worker.width - source.width) / 2 < 0 ∨
            (t_i : Int) - (worker.width - source.width) / 2 ≥ source.width))) ∧
      (∀ t_j : Nat, t_j < worker.rows.toNat →
        (row_is_sentinel worker' t_j = true ↔
          ((t_j : Int) - (worker.rows - source.rows) / 2 < 0 ∨
            (t_j : Int) - (worker.rows - source.rows) / 2 ≥ source.rows)))) := by
  have hx : (worker.width - source.width).tdiv 2 = (worker.width - source.width) / 2 :=
    Int.tdiv_eq_ediv (by omega) (by omega)
  have hy : (worker.rows - source.rows).tdiv 2 = (worker.rows - source.rows) / 2 :=
    Int.tdiv_eq_ediv (by omega) (by omega)
  have h1 := padding_before_eq worker.width source.width hw.1 hw.2
  have h2 := padding_after_eq worker.width source.width hw.1 hw.2
  have h3 := padding_before_eq worker.rows source.rows hh.1 hh.2
  have h4 := padding_after_eq worker.rows source.rows hh.1 hh.2
  rw [← sentinel_columns_left_eq hh hrun] at h1
  rw [← sentinel_columns_right_eq hh hrun] at h2
  rw [← sentinel_rows_top_eq hw hrun] at h3
  rw [← sentinel_rows_bottom_eq hw hrun] at h4
  refine ⟨⟨h1, h2, by omega, by omega⟩, ⟨h3, h4, by omega, by omega⟩,
    fun hsw hsh => ⟨fun t_i hi => ?_, fun t_j hj => ?_⟩⟩
  · rw [column_is_sentinel_iff hh hrun t_i hi, hx]
    constructor
    · rintro (hp | hp | hp)
      · exact Or.inl hp
      · exact Or.inr hp
      · omega
    · rintro (hp | hp)
      · exact Or.inl hp
      · exact Or.inr (Or.inl hp)
  · rw [row_is_sentinel_iff hw hrun t_j hj, hy]
    constructor
    · rintro (hp | hp | hp)
      · exact Or.inl hp
      · exact Or.inr hp
      · omega
    · rintro (hp | hp)
      · exact Or.inl hp
      · exact Or.inr (Or.inl hp)

theorem padding_biased_top_left_witness :
    ((sentinel_columns_left ex_source
          { ex_worker false with distance_map := ex_seeded } : Int) = (5 - 2) / 2 ∧
      (sentinel_columns_right ex_source
          { ex_worker false with distance_map := ex_seeded } : Int) = (5 - 2) - (5 - 2) / 2 ∧
      sentinel_columns_left ex_source { ex_worker false with distance_map := ex_seeded } ≤
        sentinel_columns_right ex_source { ex_worker false with distance_map := ex_seeded } ∧
      sentinel_columns_right ex_source { ex_worker false with distance_map := ex_seeded } ≤
        sentinel_columns_left ex_source
          { ex_worker false with distance_map := ex_seeded } + 1) ∧
    ((sentinel_rows_top ex_source
          { ex_worker false with distance_map := ex_seeded } : Int) = (4 - 2) / 2 ∧
      (sentinel_rows_bottom ex_source
          { ex_worker false with distance_map := ex_seeded } : Int) = (4 - 2) - (4 - 2) / 2 ∧
      sentinel_rows_top ex_source { ex_worker false with distance_map := ex_seeded } ≤
        sentinel_rows_bottom ex_source { ex_worker false with distance_map := ex_seeded } ∧
      sentinel_rows_bottom ex_source { ex_worker false with distance_map := ex_seeded } ≤
        sentinel_rows_top ex_source { ex_worker false with distance_map := ex_seeded } + 1) :=
  have h := padding_biased_top_left ex_source (ex_worker false)
    { ex_worker false with distance_map := ex_seeded } (by decide) (by decide) (by decide)
  ⟨h.1, h.2.1⟩

end Ftbsdf
